import Mathlib

/-!
Verification development for the MeshSync core of NormalPainter
(`src/Plugin/MeshSync/msCommon.h`).

The repository ships only the header: class layouts, field defaults and the
declarations of `getSerializeSize` / `serialize` / `deserialize` / `refine` /
`applyMirror`.  Every behavioural definition below is therefore a shallow
embedding built from the header's data layout, with the bodies of the missing
member functions modelled from the specification's description of the codec
(fixed positional layout, flag-gated optional sections, `[u32 length]` prefixed
containers, length-prefixed strings) and of the refinement pipeline.

Scalars: a C++ `float` round-trips through the binary codec bit-for-bit, so the
codec works on `Nat` values standing for 32-bit patterns; the geometry pipeline
is modelled over exact rationals `ℚ` (the structures are parameterised by the
scalar type).  A byte stream is a `List Nat` of values `< 256`.
-/

namespace ms

/-! ## Codec primitives

Little-endian 4-byte encoding of 32-bit values; a reader is a function
`List Nat → Option (α × List Nat)` returning the value and the unconsumed
tail. -/

/-- Encode a 32-bit value (a `Nat` bit pattern) as 4 little-endian bytes. -/
def u32Bytes (n : Nat) : List Nat :=
  [n % 256, n / 256 % 256, n / 65536 % 256, n / 16777216 % 256]

/-- Read 4 little-endian bytes as a 32-bit value. -/
def readU32 : List Nat → Option (Nat × List Nat)
  | b0 :: b1 :: b2 :: b3 :: rest =>
      some (b0 % 256 + 256 * (b1 % 256) + 65536 * (b2 % 256) + 16777216 * (b3 % 256), rest)
  | _ => none

theorem u32Bytes_length (n : Nat) : (u32Bytes n).length = 4 := rfl

theorem readU32_u32Bytes (n : Nat) (h : n < 4294967296) (rest : List Nat) :
    readU32 (u32Bytes n ++ rest) = some (n, rest) := by
  simp only [u32Bytes, List.cons_append, List.nil_append, readU32, Option.some.injEq,
    Prod.mk.injEq, and_true]
  omega

/-- Encode a C++ `int` as its 32-bit two's-complement pattern. -/
def i32Bytes (i : Int) : List Nat := u32Bytes (i % 4294967296).toNat

/-- Decode a 32-bit pattern as a signed `int`. -/
def i32OfU32 (n : Nat) : Int := if n < 2147483648 then (n : Int) else (n : Int) - 4294967296

/-- Read a 4-byte two's-complement `int`. -/
def readI32 (bs : List Nat) : Option (Int × List Nat) :=
  (readU32 bs).map fun p => (i32OfU32 p.1, p.2)

/-- `int` values representable in 32 bits. -/
def i32Range (i : Int) : Prop := -2147483648 ≤ i ∧ i < 2147483648

instance (i : Int) : Decidable (i32Range i) := by unfold i32Range; infer_instance

theorem i32Bytes_length (i : Int) : (i32Bytes i).length = 4 := rfl

theorem readI32_i32Bytes (i : Int) (h : i32Range i) (rest : List Nat) :
    readI32 (i32Bytes i ++ rest) = some (i, rest) := by
  obtain ⟨h1, h2⟩ := h
  have hmod : (i % 4294967296) = if 0 ≤ i then i else i + 4294967296 := by
    split <;> omega
  have hnn : (0 : Int) ≤ i % 4294967296 := Int.emod_nonneg i (by norm_num)
  have hlt : ((i % 4294967296).toNat) < 4294967296 := by omega
  rw [i32Bytes, readI32, readU32_u32Bytes _ hlt]
  show some (i32OfU32 (i % 4294967296).toNat, rest) = some (i, rest)
  simp only [i32OfU32, Option.some.injEq, Prod.mk.injEq, and_true]
  split <;> omega

/-- Encode a list of elements with a `u32` element-count prefix. -/
def writeSeq (enc : α → List Nat) (xs : List α) : List Nat :=
  u32Bytes xs.length ++ (xs.map enc).flatten

/-- Read `n` consecutive elements. -/
def readN (rd : List Nat → Option (α × List Nat)) : Nat → List Nat → Option (List α × List Nat)
  | 0, bs => some ([], bs)
  | n + 1, bs =>
      (rd bs).bind fun p => (readN rd n p.2).map fun q => (p.1 :: q.1, q.2)

/-- Read a `u32` count then that many elements. -/
def readSeq (rd : List Nat → Option (α × List Nat)) (bs : List Nat) :
    Option (List α × List Nat) :=
  (readU32 bs).bind fun p => readN rd p.1 p.2

theorem readN_encodeAll (rd : List Nat → Option (α × List Nat)) (enc : α → List Nat)
    (xs : List α) (rest : List Nat)
    (h : ∀ a ∈ xs, ∀ r : List Nat, rd (enc a ++ r) = some (a, r)) :
    readN rd xs.length ((xs.map enc).flatten ++ rest) = some (xs, rest) := by
  induction xs with
  | nil => simp [readN]
  | cons a as ih =>
      simp only [List.map_cons, List.flatten_cons, List.length_cons, List.append_assoc]
      rw [readN, h a (List.mem_cons_self a as)]
      show Option.map (fun q => (a :: q.1, q.2))
          (readN rd as.length ((List.map enc as).flatten ++ rest)) = some (a :: as, rest)
      rw [ih (fun b hb r => h b (List.mem_cons_of_mem a hb) r)]
      rfl

theorem readSeq_writeSeq (rd : List Nat → Option (α × List Nat)) (enc : α → List Nat)
    (xs : List α) (rest : List Nat) (hlen : xs.length < 4294967296)
    (h : ∀ a ∈ xs, ∀ r : List Nat, rd (enc a ++ r) = some (a, r)) :
    readSeq rd (writeSeq enc xs ++ rest) = some (xs, rest) := by
  simp only [writeSeq, readSeq, List.append_assoc, readU32_u32Bytes _ hlen, Option.bind_some]
  exact readN_encodeAll rd enc xs rest h

/-- Length of a count-prefixed sequence of fixed-size elements. -/
theorem writeSeq_length_const (enc : α → List Nat) (k : Nat)
    (hk : ∀ a, (enc a).length = k) (xs : List α) :
    (writeSeq enc xs).length = 4 + k * xs.length := by
  simp only [writeSeq, List.length_append, u32Bytes_length]
  congr 1
  induction xs with
  | nil => simp
  | cons a as ih => simp [ih, hk a]; ring

/-- Length of a count-prefixed sequence of variable-size elements. -/
theorem writeSeq_length (enc : α → List Nat) (xs : List α) :
    (writeSeq enc xs).length = 4 + (xs.map fun a => (enc a).length).sum := by
  simp only [writeSeq, List.length_append, u32Bytes_length, List.length_flatten,
    List.map_map]
  rfl

/-- Strings are length-prefixed byte sequences, no terminator. -/
def strBytes (s : List Nat) : List Nat := u32Bytes s.length ++ s

/-- Read a length-prefixed byte string. -/
def readStr (bs : List Nat) : Option (List Nat × List Nat) :=
  (readU32 bs).bind fun p =>
    if p.1 ≤ p.2.length then some (p.2.take p.1, p.2.drop p.1) else none

theorem readStr_strBytes (s : List Nat) (h : s.length < 4294967296) (rest : List Nat) :
    readStr (strBytes s ++ rest) = some (s, rest) := by
  rw [strBytes, readStr, List.append_assoc, readU32_u32Bytes _ h]
  show (if s.length ≤ (s ++ rest).length then
      some (List.take s.length (s ++ rest), List.drop s.length (s ++ rest)) else none)
    = some (s, rest)
  rw [if_pos (by simp)]
  simp

theorem strBytes_length (s : List Nat) : (strBytes s).length = 4 + s.length := by
  simp [strBytes, u32Bytes]; omega

/-- Length of a count-prefixed sequence of strings. -/
theorem writeSeq_str_length (xs : List (List Nat)) :
    (writeSeq strBytes xs).length = 4 + (xs.map fun s => 4 + s.length).sum := by
  rw [writeSeq_length]
  simp only [strBytes_length]

/-- A section written only when its presence bit is set. -/
def gatedEnc (b : Bool) (bytes : List Nat) : List Nat := if b then bytes else []

/-- Read a section only when its presence bit was set; otherwise yield `d`. -/
def gatedRead (b : Bool) (rd : List Nat → Option (α × List Nat)) (d : α) (bs : List Nat) :
    Option (α × List Nat) :=
  if b then rd bs else some (d, bs)

theorem gatedRead_gatedEnc {rd : List Nat → Option (α × List Nat)} {x d : α}
    {e rest : List Nat} (b : Bool) (h : rd (e ++ rest) = some (x, rest)) :
    gatedRead b rd d (gatedEnc b e ++ rest) = some ((if b then x else d), rest) := by
  cases b <;> simp [gatedEnc, gatedRead, h]

theorem gatedEnc_length (b : Bool) (bytes : List Nat) :
    (gatedEnc b bytes).length = if b then bytes.length else 0 := by
  cases b <;> simp [gatedEnc]

/-! ## Data model

The structures mirror the class layouts of `msCommon.h` field for field.  They
are parameterised by the scalar type `F`: the codec instantiates `F := Nat`
(32-bit float patterns), the geometry pipeline `F := ℚ`. -/

/-- `float2`. -/
structure Vec2 (F : Type) where
  x : F
  y : F
deriving DecidableEq, Repr

/-- `float3`. -/
structure Vec3 (F : Type) where
  x : F
  y : F
  z : F
deriving DecidableEq, Repr

/-- `float4` / `quatf` (x, y, z, w). -/
structure Vec4 (F : Type) where
  x : F
  y : F
  z : F
  w : F
deriving DecidableEq, Repr

/-- `float4x4`, four columns. -/
structure Mat4 (F : Type) where
  c0 : Vec4 F
  c1 : Vec4 F
  c2 : Vec4 F
  c3 : Vec4 F
deriving DecidableEq, Repr

/-- `SceneEntity`: `id` and hierarchical `path` (a byte string). -/
structure SceneEntity where
  id : Int
  path : List Nat
deriving DecidableEq, Repr

/-- `TRS`. -/
structure TRS (F : Type) where
  position : Vec3 F
  rotation : Vec4 F
  rotation_eularZXY : Vec3 F
  scale : Vec3 F
deriving DecidableEq, Repr

/-- `Transform : SceneEntity`. -/
structure Transform (F : Type) extends SceneEntity where
  transform : TRS F
deriving DecidableEq, Repr

/-- `Camera : Transform`. -/
structure Camera (F : Type) extends Transform F where
  fov : F
deriving DecidableEq, Repr

/-- `MeshDataFlags` bitfield, in declaration order. -/
structure MeshDataFlags where
  visible : Bool
  has_refine_settings : Bool
  has_indices : Bool
  has_counts : Bool
  has_points : Bool
  has_normals : Bool
  has_tangents : Bool
  has_uv : Bool
  has_materialIDs : Bool
  has_bones : Bool
deriving DecidableEq, Repr

/-- `MeshRefineFlags` bitfield, in declaration order. -/
structure MeshRefineFlags where
  split : Bool
  triangulate : Bool
  optimize_topology : Bool
  swap_handedness : Bool
  swap_faces : Bool
  gen_normals : Bool
  gen_normals_with_smooth_angle : Bool
  gen_tangents : Bool
  apply_local2world : Bool
  apply_world2local : Bool
  bake_skin : Bool
  invert_v : Bool
  mirror_x : Bool
  mirror_y : Bool
  mirror_z : Bool
deriving DecidableEq, Repr

/-- `MeshRefineSettings`. -/
structure MeshRefineSettings (F : Type) where
  flags : MeshRefineFlags
  scale_factor : F
  smooth_angle : F
  split_unit : Int
  local2world : Mat4 F
  world2local : Mat4 F
deriving DecidableEq, Repr

/-- `Weights<4>`: the fixed 4-wide top skin weights per vertex. -/
structure Weights4 (F : Type) where
  w0 : F
  w1 : F
  w2 : F
  w3 : F
  i0 : Int
  i1 : Int
  i2 : Int
  i3 : Int
deriving DecidableEq, Repr

/-- `SubmeshData`: an index range sharing one material. -/
structure SubmeshData where
  indices : List Int
  materialID : Int
deriving DecidableEq, Repr

/-- `SplitData`: one self-contained render-ready chunk. -/
structure SplitData (F : Type) where
  points : List (Vec3 F)
  normals : List (Vec3 F)
  tangents : List (Vec4 F)
  uv : List (Vec2 F)
  indices : List Int
  submeshes : List SubmeshData
deriving DecidableEq, Repr

/-- `Mesh : Transform`.  `submeshes`, `splits` and `weights4` are the derived,
non-serialized outputs. -/
structure Mesh (F : Type) extends Transform F where
  flags : MeshDataFlags
  refine_settings : MeshRefineSettings F
  points : List (Vec3 F)
  normals : List (Vec3 F)
  tangents : List (Vec4 F)
  uv : List (Vec2 F)
  counts : List Int
  indices : List Int
  materialIDs : List Int
  bones_par_vertex : Int
  bone_weights : List F
  bone_indices : List Int
  bones : List (List Nat)
  bindposes : List (Mat4 F)
  submeshes : List SubmeshData
  splits : List (SplitData F)
  weights4 : List (Weights4 F)
deriving DecidableEq, Repr

/-- `Scene`: one sync snapshot. -/
structure Scene (F : Type) where
  meshes : List (Mesh F)
  transforms : List (Transform F)
  cameras : List (Camera F)
deriving DecidableEq, Repr

/-- `GetFlags` bitfield, in declaration order. -/
structure GetFlags where
  get_transform : Bool
  get_points : Bool
  get_normals : Bool
  get_tangents : Bool
  get_uv : Bool
  get_indices : Bool
  get_materialIDs : Bool
  get_bones : Bool
  apply_culling : Bool
deriving DecidableEq, Repr

/-- `GetMessage`; `wait_flag` (`shared_ptr<atomic_int>`) is the non-serializable
completion signal, modelled as an optional value (`none` = null pointer). -/
structure GetMessage (F : Type) where
  flags : GetFlags
  refine_settings : MeshRefineSettings F
  wait_flag : Option Int
deriving DecidableEq, Repr

/-- `SetMessage`. -/
structure SetMessage (F : Type) where
  scene : Scene F
deriving DecidableEq, Repr

/-- `DeleteMessage::Identifier`. -/
structure DeleteIdentifier where
  path : List Nat
  id : Int
deriving DecidableEq, Repr

/-- `DeleteMessage`. -/
structure DeleteMessage where
  targets : List DeleteIdentifier
deriving DecidableEq, Repr

/-- `ScreenshotMessage`; only the non-serializable completion signal. -/
structure ScreenshotMessage where
  wait_flag : Option Int
deriving DecidableEq, Repr

/-- The `MessageType` enum exactly as declared in the source. -/
inductive MessageType where
  | Unknown
  | Get
  | Post
  | Delete
  | Screenshot
deriving DecidableEq, Repr

/-- The closed set of concrete `Message` subclasses: `GetMessage`, `SetMessage`,
`DeleteMessage`, `ScreenshotMessage`. -/
inductive Message (F : Type) where
  | get (m : GetMessage F)
  | set (m : SetMessage F)
  | del (m : DeleteMessage)
  | screenshot (m : ScreenshotMessage)
deriving DecidableEq, Repr

/-! ### Field defaults (the header's member initializers), at `F := ℚ`. -/

/-- Default-constructed `TRS`. -/
def TRS.init : TRS ℚ :=
  { position := ⟨0, 0, 0⟩
    rotation := ⟨0, 0, 0, 1⟩
    rotation_eularZXY := ⟨0, 0, 0⟩
    scale := ⟨1, 1, 1⟩ }

/-- `float4x4::identity()`. -/
def Mat4.identity : Mat4 ℚ :=
  ⟨⟨1, 0, 0, 0⟩, ⟨0, 1, 0, 0⟩, ⟨0, 0, 1, 0⟩, ⟨0, 0, 0, 1⟩⟩

/-- Default-constructed `Transform`. -/
def Transform.init : Transform ℚ :=
  { id := 0, path := [], transform := TRS.init }

/-- Default-constructed `Camera` (`fov = 30.0f`). -/
def Camera.init : Camera ℚ :=
  { toTransform := Transform.init, fov := 30 }

/-- `MeshRefineFlags` all cleared (`flags = { 0 }`). -/
def MeshRefineFlags.init : MeshRefineFlags :=
  ⟨false, false, false, false, false, false, false, false, false, false, false,
   false, false, false, false⟩

/-- Default-constructed `MeshRefineSettings`. -/
def MeshRefineSettings.init : MeshRefineSettings ℚ :=
  { flags := MeshRefineFlags.init
    scale_factor := 1
    smooth_angle := 0
    split_unit := 65000
    local2world := Mat4.identity
    world2local := Mat4.identity }

/-! ### Bitfield packing

The flag records are written to the wire as one `u32`; bit `i` is the `i`-th
declared field. -/

/-- Bit `i` of `n`. -/
def bitAt (n i : Nat) : Bool := decide (n / 2 ^ i % 2 = 1)

/-- Pack `MeshDataFlags` into its `u32` image. -/
def MeshDataFlags.pack (f : MeshDataFlags) : Nat :=
  f.visible.toNat + 2 * f.has_refine_settings.toNat + 4 * f.has_indices.toNat +
  8 * f.has_counts.toNat + 16 * f.has_points.toNat + 32 * f.has_normals.toNat +
  64 * f.has_tangents.toNat + 128 * f.has_uv.toNat + 256 * f.has_materialIDs.toNat +
  512 * f.has_bones.toNat

/-- Unpack `MeshDataFlags` from a `u32`. -/
def MeshDataFlags.unpack (n : Nat) : MeshDataFlags :=
  ⟨bitAt n 0, bitAt n 1, bitAt n 2, bitAt n 3, bitAt n 4, bitAt n 5, bitAt n 6,
   bitAt n 7, bitAt n 8, bitAt n 9⟩

theorem meshDataFlags_unpack_pack (f : MeshDataFlags) :
    MeshDataFlags.unpack f.pack = f := by
  obtain ⟨b0, b1, b2, b3, b4, b5, b6, b7, b8, b9⟩ := f
  have h0 := Bool.toNat_lt b0; have h1 := Bool.toNat_lt b1
  have h2 := Bool.toNat_lt b2; have h3 := Bool.toNat_lt b3
  have h4 := Bool.toNat_lt b4; have h5 := Bool.toNat_lt b5
  have h6 := Bool.toNat_lt b6; have h7 := Bool.toNat_lt b7
  have h8 := Bool.toNat_lt b8; have h9 := Bool.toNat_lt b9
  simp only [MeshDataFlags.pack, MeshDataFlags.unpack, bitAt, MeshDataFlags.mk.injEq]
  refine ⟨?_, ?_, ?_, ?_, ?_, ?_, ?_, ?_, ?_, ?_⟩ <;>
    rw [Bool.eq_iff_iff, decide_eq_true_iff] <;>
    rw [show ∀ b : Bool, (b = true ↔ b.toNat = 1) from fun b => by cases b <;> simp] <;>
    omega

theorem meshDataFlags_pack_lt (f : MeshDataFlags) : f.pack < 4294967296 := by
  obtain ⟨b0, b1, b2, b3, b4, b5, b6, b7, b8, b9⟩ := f
  have h0 := Bool.toNat_lt b0; have h1 := Bool.toNat_lt b1
  have h2 := Bool.toNat_lt b2; have h3 := Bool.toNat_lt b3
  have h4 := Bool.toNat_lt b4; have h5 := Bool.toNat_lt b5
  have h6 := Bool.toNat_lt b6; have h7 := Bool.toNat_lt b7
  have h8 := Bool.toNat_lt b8; have h9 := Bool.toNat_lt b9
  simp only [MeshDataFlags.pack]
  omega

/-- Pack `MeshRefineFlags` into its `u32` image. -/
def MeshRefineFlags.pack (f : MeshRefineFlags) : Nat :=
  f.split.toNat + 2 * f.triangulate.toNat + 4 * f.optimize_topology.toNat +
  8 * f.swap_handedness.toNat + 16 * f.swap_faces.toNat + 32 * f.gen_normals.toNat +
  64 * f.gen_normals_with_smooth_angle.toNat + 128 * f.gen_tangents.toNat +
  256 * f.apply_local2world.toNat + 512 * f.apply_world2local.toNat +
  1024 * f.bake_skin.toNat + 2048 * f.invert_v.toNat + 4096 * f.mirror_x.toNat +
  8192 * f.mirror_y.toNat + 16384 * f.mirror_z.toNat

/-- Unpack `MeshRefineFlags` from a `u32`. -/
def MeshRefineFlags.unpack (n : Nat) : MeshRefineFlags :=
  ⟨bitAt n 0, bitAt n 1, bitAt n 2, bitAt n 3, bitAt n 4, bitAt n 5, bitAt n 6,
   bitAt n 7, bitAt n 8, bitAt n 9, bitAt n 10, bitAt n 11, bitAt n 12, bitAt n 13,
   bitAt n 14⟩

theorem meshRefineFlags_unpack_pack (f : MeshRefineFlags) :
    MeshRefineFlags.unpack f.pack = f := by
  obtain ⟨b0, b1, b2, b3, b4, b5, b6, b7, b8, b9, b10, b11, b12, b13, b14⟩ := f
  have h0 := Bool.toNat_lt b0; have h1 := Bool.toNat_lt b1
  have h2 := Bool.toNat_lt b2; have h3 := Bool.toNat_lt b3
  have h4 := Bool.toNat_lt b4; have h5 := Bool.toNat_lt b5
  have h6 := Bool.toNat_lt b6; have h7 := Bool.toNat_lt b7
  have h8 := Bool.toNat_lt b8; have h9 := Bool.toNat_lt b9
  have h10 := Bool.toNat_lt b10; have h11 := Bool.toNat_lt b11
  have h12 := Bool.toNat_lt b12; have h13 := Bool.toNat_lt b13
  have h14 := Bool.toNat_lt b14
  simp only [MeshRefineFlags.pack, MeshRefineFlags.unpack, bitAt, MeshRefineFlags.mk.injEq]
  refine ⟨?_, ?_, ?_, ?_, ?_, ?_, ?_, ?_, ?_, ?_, ?_, ?_, ?_, ?_, ?_⟩ <;>
    rw [Bool.eq_iff_iff, decide_eq_true_iff] <;>
    rw [show ∀ b : Bool, (b = true ↔ b.toNat = 1) from fun b => by cases b <;> simp] <;>
    omega

theorem meshRefineFlags_pack_lt (f : MeshRefineFlags) : f.pack < 4294967296 := by
  obtain ⟨b0, b1, b2, b3, b4, b5, b6, b7, b8, b9, b10, b11, b12, b13, b14⟩ := f
  have h0 := Bool.toNat_lt b0; have h1 := Bool.toNat_lt b1
  have h2 := Bool.toNat_lt b2; have h3 := Bool.toNat_lt b3
  have h4 := Bool.toNat_lt b4; have h5 := Bool.toNat_lt b5
  have h6 := Bool.toNat_lt b6; have h7 := Bool.toNat_lt b7
  have h8 := Bool.toNat_lt b8; have h9 := Bool.toNat_lt b9
  have h10 := Bool.toNat_lt b10; have h11 := Bool.toNat_lt b11
  have h12 := Bool.toNat_lt b12; have h13 := Bool.toNat_lt b13
  have h14 := Bool.toNat_lt b14
  simp only [MeshRefineFlags.pack]
  omega

/-- Pack `GetFlags` into its `u32` image. -/
def GetFlags.pack (f : GetFlags) : Nat :=
  f.get_transform.toNat + 2 * f.get_points.toNat + 4 * f.get_normals.toNat +
  8 * f.get_tangents.toNat + 16 * f.get_uv.toNat + 32 * f.get_indices.toNat +
  64 * f.get_materialIDs.toNat + 128 * f.get_bones.toNat + 256 * f.apply_culling.toNat

/-- Unpack `GetFlags` from a `u32`. -/
def GetFlags.unpack (n : Nat) : GetFlags :=
  ⟨bitAt n 0, bitAt n 1, bitAt n 2, bitAt n 3, bitAt n 4, bitAt n 5, bitAt n 6,
   bitAt n 7, bitAt n 8⟩

theorem getFlags_unpack_pack (f : GetFlags) :
    GetFlags.unpack f.pack = f := by
  obtain ⟨b0, b1, b2, b3, b4, b5, b6, b7, b8⟩ := f
  have h0 := Bool.toNat_lt b0; have h1 := Bool.toNat_lt b1
  have h2 := Bool.toNat_lt b2; have h3 := Bool.toNat_lt b3
  have h4 := Bool.toNat_lt b4; have h5 := Bool.toNat_lt b5
  have h6 := Bool.toNat_lt b6; have h7 := Bool.toNat_lt b7
  have h8 := Bool.toNat_lt b8
  simp only [GetFlags.pack, GetFlags.unpack, bitAt, GetFlags.mk.injEq]
  refine ⟨?_, ?_, ?_, ?_, ?_, ?_, ?_, ?_, ?_⟩ <;>
    rw [Bool.eq_iff_iff, decide_eq_true_iff] <;>
    rw [show ∀ b : Bool, (b = true ↔ b.toNat = 1) from fun b => by cases b <;> simp] <;>
    omega

theorem getFlags_pack_lt (f : GetFlags) : f.pack < 4294967296 := by
  obtain ⟨b0, b1, b2, b3, b4, b5, b6, b7, b8⟩ := f
  have h0 := Bool.toNat_lt b0; have h1 := Bool.toNat_lt b1
  have h2 := Bool.toNat_lt b2; have h3 := Bool.toNat_lt b3
  have h4 := Bool.toNat_lt b4; have h5 := Bool.toNat_lt b5
  have h6 := Bool.toNat_lt b6; have h7 := Bool.toNat_lt b7
  have h8 := Bool.toNat_lt b8
  simp only [GetFlags.pack]
  omega

/-! ## Serialization of the model types

Modelled from the spec: the member-function bodies are not in the repository,
only their declarations; the spec fixes the layout — positional field order
(base fields first), fixed-size values written raw, containers as
`[u32 length][elements]`, strings length-prefixed, optional mesh sections gated
by the flag word which is read first.  `F := Nat`, scalars being 32-bit float
patterns, which the binary codec round-trips bit-for-bit. -/

/-- Well-formed 32-bit scalar pattern. -/
def fwf (x : Nat) : Prop := x < 4294967296

instance (x : Nat) : Decidable (fwf x) := by unfold fwf; infer_instance

def Vec2.enc (v : Vec2 Nat) : List Nat := u32Bytes v.x ++ u32Bytes v.y

def Vec3.enc (v : Vec3 Nat) : List Nat := u32Bytes v.x ++ u32Bytes v.y ++ u32Bytes v.z

def Vec4.enc (v : Vec4 Nat) : List Nat :=
  u32Bytes v.x ++ u32Bytes v.y ++ u32Bytes v.z ++ u32Bytes v.w

def Mat4.enc (m : Mat4 Nat) : List Nat := m.c0.enc ++ m.c1.enc ++ m.c2.enc ++ m.c3.enc

def Vec2.wf (v : Vec2 Nat) : Prop := fwf v.x ∧ fwf v.y

def Vec3.wf (v : Vec3 Nat) : Prop := fwf v.x ∧ fwf v.y ∧ fwf v.z

def Vec4.wf (v : Vec4 Nat) : Prop := fwf v.x ∧ fwf v.y ∧ fwf v.z ∧ fwf v.w

def Mat4.wf (m : Mat4 Nat) : Prop := m.c0.wf ∧ m.c1.wf ∧ m.c2.wf ∧ m.c3.wf

instance (v : Vec2 Nat) : Decidable v.wf := by unfold Vec2.wf; infer_instance
instance (v : Vec3 Nat) : Decidable v.wf := by unfold Vec3.wf; infer_instance
instance (v : Vec4 Nat) : Decidable v.wf := by unfold Vec4.wf; infer_instance
instance (m : Mat4 Nat) : Decidable m.wf := by unfold Mat4.wf; infer_instance

def readVec2 (bs : List Nat) : Option (Vec2 Nat × List Nat) :=
  (readU32 bs).bind fun p =>
  (readU32 p.2).map fun q => (⟨p.1, q.1⟩, q.2)

def readVec3 (bs : List Nat) : Option (Vec3 Nat × List Nat) :=
  (readU32 bs).bind fun p =>
  (readU32 p.2).bind fun q =>
  (readU32 q.2).map fun r => (⟨p.1, q.1, r.1⟩, r.2)

def readVec4 (bs : List Nat) : Option (Vec4 Nat × List Nat) :=
  (readU32 bs).bind fun p =>
  (readU32 p.2).bind fun q =>
  (readU32 q.2).bind fun r =>
  (readU32 r.2).map fun s => (⟨p.1, q.1, r.1, s.1⟩, s.2)

def readMat4 (bs : List Nat) : Option (Mat4 Nat × List Nat) :=
  (readVec4 bs).bind fun p =>
  (readVec4 p.2).bind fun q =>
  (readVec4 q.2).bind fun r =>
  (readVec4 r.2).map fun s => (⟨p.1, q.1, r.1, s.1⟩, s.2)

theorem readVec2_enc (v : Vec2 Nat) (h : v.wf) (rest : List Nat) :
    readVec2 (v.enc ++ rest) = some (v, rest) := by
  obtain ⟨h1, h2⟩ := h
  simp only [Vec2.enc, readVec2, List.append_assoc, readU32_u32Bytes _ h1,
    readU32_u32Bytes _ h2, Option.some_bind, Option.map_some']

theorem readVec3_enc (v : Vec3 Nat) (h : v.wf) (rest : List Nat) :
    readVec3 (v.enc ++ rest) = some (v, rest) := by
  obtain ⟨h1, h2, h3⟩ := h
  simp only [Vec3.enc, readVec3, List.append_assoc, readU32_u32Bytes _ h1,
    readU32_u32Bytes _ h2, readU32_u32Bytes _ h3, Option.some_bind, Option.map_some']

theorem readVec4_enc (v : Vec4 Nat) (h : v.wf) (rest : List Nat) :
    readVec4 (v.enc ++ rest) = some (v, rest) := by
  obtain ⟨h1, h2, h3, h4⟩ := h
  simp only [Vec4.enc, readVec4, List.append_assoc, readU32_u32Bytes _ h1,
    readU32_u32Bytes _ h2, readU32_u32Bytes _ h3, readU32_u32Bytes _ h4,
    Option.some_bind, Option.map_some']

theorem readMat4_enc (m : Mat4 Nat) (h : m.wf) (rest : List Nat) :
    readMat4 (m.enc ++ rest) = some (m, rest) := by
  obtain ⟨h1, h2, h3, h4⟩ := h
  simp only [Mat4.enc, readMat4, List.append_assoc, readVec4_enc _ h1,
    readVec4_enc _ h2, readVec4_enc _ h3, readVec4_enc _ h4,
    Option.some_bind, Option.map_some']

theorem vec2_enc_length (v : Vec2 Nat) : v.enc.length = 8 := by
  simp [Vec2.enc, u32Bytes]

theorem vec3_enc_length (v : Vec3 Nat) : v.enc.length = 12 := by
  simp [Vec3.enc, u32Bytes]

theorem vec4_enc_length (v : Vec4 Nat) : v.enc.length = 16 := by
  simp [Vec4.enc, u32Bytes]

theorem mat4_enc_length (m : Mat4 Nat) : m.enc.length = 64 := by
  simp [Mat4.enc, vec4_enc_length]

/-! ### `SceneEntity`, `Transform`, `Camera` -/

/-- Modelled from the spec: the body of `SceneEntity::getSerializeSize`. -/
def SceneEntity.getSerializeSize (e : SceneEntity) : Nat := 4 + (4 + e.path.length)

/-- Modelled from the spec: the body of `SceneEntity::serialize`. -/
def SceneEntity.serialize (e : SceneEntity) : List Nat := i32Bytes e.id ++ strBytes e.path

/-- Modelled from the spec: the body of `SceneEntity::deserialize`. -/
def SceneEntity.deserialize (bs : List Nat) : Option (SceneEntity × List Nat) :=
  (readI32 bs).bind fun p =>
  (readStr p.2).map fun q => (⟨p.1, q.1⟩, q.2)

def SceneEntity.wf (e : SceneEntity) : Prop :=
  i32Range e.id ∧ e.path.length < 4294967296

instance (e : SceneEntity) : Decidable e.wf := by unfold SceneEntity.wf; infer_instance

theorem sceneEntity_deserialize_serialize (e : SceneEntity) (h : e.wf) (rest : List Nat) :
    SceneEntity.deserialize (e.serialize ++ rest) = some (e, rest) := by
  obtain ⟨h1, h2⟩ := h
  simp only [SceneEntity.serialize, SceneEntity.deserialize, List.append_assoc,
    readI32_i32Bytes _ h1, readStr_strBytes _ h2, Option.some_bind, Option.map_some']

theorem sceneEntity_size_eq (e : SceneEntity) :
    e.getSerializeSize = e.serialize.length := by
  simp [SceneEntity.getSerializeSize, SceneEntity.serialize, i32Bytes, u32Bytes,
    strBytes_length]
  omega

/-- The `TRS` block is written as raw fixed-size fields in declaration order. -/
def TRS.enc (t : TRS Nat) : List Nat :=
  t.position.enc ++ t.rotation.enc ++ t.rotation_eularZXY.enc ++ t.scale.enc

def readTRS (bs : List Nat) : Option (TRS Nat × List Nat) :=
  (readVec3 bs).bind fun p =>
  (readVec4 p.2).bind fun q =>
  (readVec3 q.2).bind fun r =>
  (readVec3 r.2).map fun s => (⟨p.1, q.1, r.1, s.1⟩, s.2)

def TRS.wf (t : TRS Nat) : Prop :=
  t.position.wf ∧ t.rotation.wf ∧ t.rotation_eularZXY.wf ∧ t.scale.wf

instance (t : TRS Nat) : Decidable t.wf := by unfold TRS.wf; infer_instance

theorem readTRS_enc (t : TRS Nat) (h : t.wf) (rest : List Nat) :
    readTRS (t.enc ++ rest) = some (t, rest) := by
  obtain ⟨h1, h2, h3, h4⟩ := h
  simp only [TRS.enc, readTRS, List.append_assoc, readVec3_enc _ h1, readVec4_enc _ h2,
    readVec3_enc _ h3, readVec3_enc _ h4, Option.some_bind, Option.map_some']

theorem trs_enc_length (t : TRS Nat) : t.enc.length = 52 := by
  simp [TRS.enc, vec3_enc_length, vec4_enc_length]

/-- Modelled from the spec: the body of `Transform::getSerializeSize`. -/
def Transform.getSerializeSize (t : Transform Nat) : Nat :=
  t.toSceneEntity.getSerializeSize + 52

/-- Modelled from the spec: the body of `Transform::serialize`: base fields first, then the `TRS`. -/
def Transform.serialize (t : Transform Nat) : List Nat :=
  t.toSceneEntity.serialize ++ t.transform.enc

/-- Modelled from the spec: the body of `Transform::deserialize`. -/
def Transform.deserialize (bs : List Nat) : Option (Transform Nat × List Nat) :=
  (SceneEntity.deserialize bs).bind fun p =>
  (readTRS p.2).map fun q => (⟨p.1, q.1⟩, q.2)

def Transform.wf (t : Transform Nat) : Prop := t.toSceneEntity.wf ∧ t.transform.wf

instance (t : Transform Nat) : Decidable t.wf := by unfold Transform.wf; infer_instance

theorem transform_deserialize_serialize (t : Transform Nat) (h : t.wf) (rest : List Nat) :
    Transform.deserialize (t.serialize ++ rest) = some (t, rest) := by
  obtain ⟨h1, h2⟩ := h
  simp only [Transform.serialize, Transform.deserialize, List.append_assoc,
    sceneEntity_deserialize_serialize _ h1, readTRS_enc _ h2, Option.some_bind,
    Option.map_some']

theorem transform_size_eq (t : Transform Nat) :
    t.getSerializeSize = t.serialize.length := by
  simp [Transform.getSerializeSize, Transform.serialize, sceneEntity_size_eq,
    trs_enc_length]

/-- Modelled from the spec: the body of `Camera::getSerializeSize`. -/
def Camera.getSerializeSize (c : Camera Nat) : Nat := c.toTransform.getSerializeSize + 4

/-- Modelled from the spec: the body of `Camera::serialize`: the `Transform` part, then `fov`. -/
def Camera.serialize (c : Camera Nat) : List Nat :=
  c.toTransform.serialize ++ u32Bytes c.fov

/-- Modelled from the spec: the body of `Camera::deserialize`. -/
def Camera.deserialize (bs : List Nat) : Option (Camera Nat × List Nat) :=
  (Transform.deserialize bs).bind fun p =>
  (readU32 p.2).map fun q => (⟨p.1, q.1⟩, q.2)

def Camera.wf (c : Camera Nat) : Prop := c.toTransform.wf ∧ fwf c.fov

instance (c : Camera Nat) : Decidable c.wf := by unfold Camera.wf; infer_instance

theorem camera_deserialize_serialize (c : Camera Nat) (h : c.wf) (rest : List Nat) :
    Camera.deserialize (c.serialize ++ rest) = some (c, rest) := by
  obtain ⟨h1, h2⟩ := h
  simp only [Camera.serialize, Camera.deserialize, List.append_assoc,
    transform_deserialize_serialize _ h1, readU32_u32Bytes _ h2, Option.some_bind,
    Option.map_some']

theorem camera_size_eq (c : Camera Nat) :
    c.getSerializeSize = c.serialize.length := by
  simp [Camera.getSerializeSize, Camera.serialize, transform_size_eq, u32Bytes]

/-! ### `MeshRefineSettings` -/

/-- `MeshRefineSettings` wire image: flag word, scalars, then both matrices. -/
def MeshRefineSettings.enc (s : MeshRefineSettings Nat) : List Nat :=
  u32Bytes s.flags.pack ++ u32Bytes s.scale_factor ++ u32Bytes s.smooth_angle ++
  i32Bytes s.split_unit ++ s.local2world.enc ++ s.world2local.enc

def readRefineSettings (bs : List Nat) : Option (MeshRefineSettings Nat × List Nat) :=
  (readU32 bs).bind fun p =>
  (readU32 p.2).bind fun q =>
  (readU32 q.2).bind fun r =>
  (readI32 r.2).bind fun s =>
  (readMat4 s.2).bind fun l =>
  (readMat4 l.2).map fun w =>
    (⟨MeshRefineFlags.unpack p.1, q.1, r.1, s.1, l.1, w.1⟩, w.2)

def MeshRefineSettings.wf (s : MeshRefineSettings Nat) : Prop :=
  fwf s.scale_factor ∧ fwf s.smooth_angle ∧ i32Range s.split_unit ∧
  s.local2world.wf ∧ s.world2local.wf

instance (s : MeshRefineSettings Nat) : Decidable s.wf := by
  unfold MeshRefineSettings.wf; infer_instance

theorem readRefineSettings_enc (s : MeshRefineSettings Nat) (h : s.wf) (rest : List Nat) :
    readRefineSettings (s.enc ++ rest) = some (s, rest) := by
  obtain ⟨h1, h2, h3, h4, h5⟩ := h
  simp only [MeshRefineSettings.enc, readRefineSettings, List.append_assoc,
    readU32_u32Bytes _ (meshRefineFlags_pack_lt s.flags), readU32_u32Bytes _ h1, readU32_u32Bytes _ h2,
    readI32_i32Bytes _ h3, readMat4_enc _ h4, readMat4_enc _ h5, Option.some_bind,
    Option.map_some', meshRefineFlags_unpack_pack]

theorem refineSettings_enc_length (s : MeshRefineSettings Nat) :
    s.enc.length = 144 := by
  simp [MeshRefineSettings.enc, u32Bytes, i32Bytes, mat4_enc_length]

/-! ### `Mesh` -/

/-- Bit pattern of `1.0f`. -/
def f32one : Nat := 1065353216

/-- Bit pattern of `30.0f`. -/
def f32thirty : Nat := 1106247680

/-- Default-constructed `TRS` at `F := Nat` (float patterns of the defaults). -/
def TRS.initN : TRS Nat :=
  ⟨⟨0, 0, 0⟩, ⟨0, 0, 0, f32one⟩, ⟨0, 0, 0⟩, ⟨f32one, f32one, f32one⟩⟩

/-- `float4x4::identity()` at `F := Nat`. -/
def Mat4.identityN : Mat4 Nat :=
  ⟨⟨f32one, 0, 0, 0⟩, ⟨0, f32one, 0, 0⟩, ⟨0, 0, f32one, 0⟩, ⟨0, 0, 0, f32one⟩⟩

/-- Default-constructed `MeshRefineSettings` at `F := Nat`. -/
def MeshRefineSettings.initN : MeshRefineSettings Nat :=
  ⟨MeshRefineFlags.init, f32one, 0, 65000, Mat4.identityN, Mat4.identityN⟩

/-- Default-constructed `Mesh` (what the dispatcher hands to `deserialize`). -/
def Mesh.initN : Mesh Nat :=
  { id := 0, path := [], transform := TRS.initN
    flags := ⟨false, false, false, false, false, false, false, false, false, false⟩
    refine_settings := MeshRefineSettings.initN
    points := [], normals := [], tangents := [], uv := []
    counts := [], indices := [], materialIDs := []
    bones_par_vertex := 0, bone_weights := [], bone_indices := [], bones := []
    bindposes := [], submeshes := [], splits := [], weights4 := [] }

/-- The flag word `serialize` writes: presence of each optional buffer computed
from its non-emptiness (`has_bones` from the skin weight buffer); `visible` and
`has_refine_settings` are carried in-memory bits. -/
def Mesh.wireFlags (m : Mesh Nat) : MeshDataFlags :=
  { visible := m.flags.visible
    has_refine_settings := m.flags.has_refine_settings
    has_indices := !m.indices.isEmpty
    has_counts := !m.counts.isEmpty
    has_points := !m.points.isEmpty
    has_normals := !m.normals.isEmpty
    has_tangents := !m.tangents.isEmpty
    has_uv := !m.uv.isEmpty
    has_materialIDs := !m.materialIDs.isEmpty
    has_bones := !m.bone_weights.isEmpty }

/-- Modelled from the spec: the body of `Mesh::serialize`: the `Transform` part, the flag word, then each optional
section (member declaration order) exactly when its flag bit is set. -/
def Mesh.serialize (m : Mesh Nat) : List Nat :=
  let f := m.wireFlags
  m.toTransform.serialize ++ u32Bytes f.pack ++
  gatedEnc f.has_points (writeSeq Vec3.enc m.points) ++
  gatedEnc f.has_normals (writeSeq Vec3.enc m.normals) ++
  gatedEnc f.has_tangents (writeSeq Vec4.enc m.tangents) ++
  gatedEnc f.has_uv (writeSeq Vec2.enc m.uv) ++
  gatedEnc f.has_counts (writeSeq i32Bytes m.counts) ++
  gatedEnc f.has_indices (writeSeq i32Bytes m.indices) ++
  gatedEnc f.has_materialIDs (writeSeq i32Bytes m.materialIDs) ++
  gatedEnc f.has_bones
    (i32Bytes m.bones_par_vertex ++ writeSeq u32Bytes m.bone_weights ++
     writeSeq i32Bytes m.bone_indices ++ writeSeq strBytes m.bones ++
     writeSeq Mat4.enc m.bindposes) ++
  gatedEnc f.has_refine_settings m.refine_settings.enc

/-- Modelled from the spec: the body of `Mesh::getSerializeSize`: the exact byte count of `serialize`, summed from
the same gates; no side effects (a pure function of the mesh). -/
def Mesh.getSerializeSize (m : Mesh Nat) : Nat :=
  let f := m.wireFlags
  m.toTransform.getSerializeSize + 4 +
  (if f.has_points then 4 + 12 * m.points.length else 0) +
  (if f.has_normals then 4 + 12 * m.normals.length else 0) +
  (if f.has_tangents then 4 + 16 * m.tangents.length else 0) +
  (if f.has_uv then 4 + 8 * m.uv.length else 0) +
  (if f.has_counts then 4 + 4 * m.counts.length else 0) +
  (if f.has_indices then 4 + 4 * m.indices.length else 0) +
  (if f.has_materialIDs then 4 + 4 * m.materialIDs.length else 0) +
  (if f.has_bones then
    4 + (4 + 4 * m.bone_weights.length) + (4 + 4 * m.bone_indices.length) +
    (4 + (m.bones.map fun s => 4 + s.length).sum) + (4 + 64 * m.bindposes.length)
   else 0) +
  (if f.has_refine_settings then 144 else 0)

/-- Reader for the skin-data section. -/
def readBones (bs : List Nat) :
    Option ((Int × List Nat × List Int × List (List Nat) × List (Mat4 Nat)) × List Nat) :=
  (readI32 bs).bind fun p =>
  (readSeq readU32 p.2).bind fun w =>
  (readSeq readI32 w.2).bind fun bi =>
  (readSeq readStr bi.2).bind fun bn =>
  (readSeq readMat4 bn.2).map fun bp => ((p.1, w.1, bi.1, bn.1, bp.1), bp.2)

/-- Modelled from the spec: the body of `Mesh::deserialize` into the receiving instance `recv`: reads the flag word
first, then only the flagged sections; unflagged buffers are reset to empty and
an unflagged refine-settings block to its default, reconstructing exactly the
serialized state; the non-serialized members (`submeshes`, `splits`,
`weights4`) of the receiver are never touched. -/
def Mesh.deserialize (recv : Mesh Nat) (bs : List Nat) : Option (Mesh Nat × List Nat) :=
  (Transform.deserialize bs).bind fun t =>
  (readU32 t.2).bind fun fw =>
  let f := MeshDataFlags.unpack fw.1
  (gatedRead f.has_points (readSeq readVec3) [] fw.2).bind fun pts =>
  (gatedRead f.has_normals (readSeq readVec3) [] pts.2).bind fun nms =>
  (gatedRead f.has_tangents (readSeq readVec4) [] nms.2).bind fun tgs =>
  (gatedRead f.has_uv (readSeq readVec2) [] tgs.2).bind fun uvs =>
  (gatedRead f.has_counts (readSeq readI32) [] uvs.2).bind fun cts =>
  (gatedRead f.has_indices (readSeq readI32) [] cts.2).bind fun idx =>
  (gatedRead f.has_materialIDs (readSeq readI32) [] idx.2).bind fun mids =>
  (gatedRead f.has_bones readBones (0, [], [], [], []) mids.2).bind fun bn =>
  (gatedRead f.has_refine_settings readRefineSettings MeshRefineSettings.initN bn.2).map
    fun rs =>
    ({ toTransform := t.1, flags := f, refine_settings := rs.1
       points := pts.1, normals := nms.1, tangents := tgs.1, uv := uvs.1
       counts := cts.1, indices := idx.1, materialIDs := mids.1
       bones_par_vertex := bn.1.1, bone_weights := bn.1.2.1
       bone_indices := bn.1.2.2.1, bones := bn.1.2.2.2.1, bindposes := bn.1.2.2.2.2
       submeshes := recv.submeshes, splits := recv.splits
       weights4 := recv.weights4 }, rs.2)

/-- All numeric fields of the mesh fit their 32-bit wire slots. -/
def Mesh.wf (m : Mesh Nat) : Prop :=
  m.toTransform.wf ∧ m.refine_settings.wf ∧
  m.points.length < 4294967296 ∧ (∀ v ∈ m.points, v.wf) ∧
  m.normals.length < 4294967296 ∧ (∀ v ∈ m.normals, v.wf) ∧
  m.tangents.length < 4294967296 ∧ (∀ v ∈ m.tangents, v.wf) ∧
  m.uv.length < 4294967296 ∧ (∀ v ∈ m.uv, v.wf) ∧
  m.counts.length < 4294967296 ∧ (∀ i ∈ m.counts, i32Range i) ∧
  m.indices.length < 4294967296 ∧ (∀ i ∈ m.indices, i32Range i) ∧
  m.materialIDs.length < 4294967296 ∧ (∀ i ∈ m.materialIDs, i32Range i) ∧
  i32Range m.bones_par_vertex ∧
  m.bone_weights.length < 4294967296 ∧ (∀ x ∈ m.bone_weights, fwf x) ∧
  m.bone_indices.length < 4294967296 ∧ (∀ i ∈ m.bone_indices, i32Range i) ∧
  m.bones.length < 4294967296 ∧ (∀ s ∈ m.bones, s.length < 4294967296) ∧
  m.bindposes.length < 4294967296 ∧ (∀ p ∈ m.bindposes, p.wf)

instance (m : Mesh Nat) : Decidable m.wf := by unfold Mesh.wf; infer_instance

/-- A populated mesh: its in-memory flags agree with buffer emptiness, skin
fields are cleared when no skin weights are present, and an unflagged
refine-settings block holds its default. -/
def Mesh.populated (m : Mesh Nat) : Prop :=
  m.flags = m.wireFlags ∧
  (m.flags.has_refine_settings = false → m.refine_settings = MeshRefineSettings.initN) ∧
  (m.bone_weights.isEmpty = true →
    m.bones_par_vertex = 0 ∧ m.bone_indices = [] ∧ m.bones = [] ∧ m.bindposes = [])

instance (m : Mesh Nat) : Decidable m.populated := by
  unfold Mesh.populated; infer_instance

theorem if_not_isEmpty {α : Type} (l : List α) :
    (if (!l.isEmpty) then l else ([] : List α)) = l := by
  cases l <;> simp

theorem mesh_deserialize_serialize (m recv : Mesh Nat) (hw : m.wf) (hp : m.populated)
    (rest : List Nat) :
    Mesh.deserialize recv (m.serialize ++ rest) =
      some ({ m with submeshes := recv.submeshes, splits := recv.splits
                     weights4 := recv.weights4 }, rest) := by
  obtain ⟨h1, h2, lp, ep, ln, en, lt, et, lu, eu, lc, ec, li, ei, lm, em, hbpv,
    lw, ew, lbi, ebi, lb, eb, lbp, ebp⟩ := hw
  have gp : ∀ r, gatedRead (!m.points.isEmpty) (readSeq readVec3) []
      (gatedEnc (!m.points.isEmpty) (writeSeq Vec3.enc m.points) ++ r) =
      some (m.points, r) := fun r => by
    rw [gatedRead_gatedEnc _ (readSeq_writeSeq _ _ _ r lp fun a ha s => readVec3_enc a (ep a ha) s),
      if_not_isEmpty]
  have gn : ∀ r, gatedRead (!m.normals.isEmpty) (readSeq readVec3) []
      (gatedEnc (!m.normals.isEmpty) (writeSeq Vec3.enc m.normals) ++ r) =
      some (m.normals, r) := fun r => by
    rw [gatedRead_gatedEnc _ (readSeq_writeSeq _ _ _ r ln fun a ha s => readVec3_enc a (en a ha) s),
      if_not_isEmpty]
  have gt : ∀ r, gatedRead (!m.tangents.isEmpty) (readSeq readVec4) []
      (gatedEnc (!m.tangents.isEmpty) (writeSeq Vec4.enc m.tangents) ++ r) =
      some (m.tangents, r) := fun r => by
    rw [gatedRead_gatedEnc _ (readSeq_writeSeq _ _ _ r lt fun a ha s => readVec4_enc a (et a ha) s),
      if_not_isEmpty]
  have gu : ∀ r, gatedRead (!m.uv.isEmpty) (readSeq readVec2) []
      (gatedEnc (!m.uv.isEmpty) (writeSeq Vec2.enc m.uv) ++ r) =
      some (m.uv, r) := fun r => by
    rw [gatedRead_gatedEnc _ (readSeq_writeSeq _ _ _ r lu fun a ha s => readVec2_enc a (eu a ha) s),
      if_not_isEmpty]
  have gc : ∀ r, gatedRead (!m.counts.isEmpty) (readSeq readI32) []
      (gatedEnc (!m.counts.isEmpty) (writeSeq i32Bytes m.counts) ++ r) =
      some (m.counts, r) := fun r => by
    rw [gatedRead_gatedEnc _ (readSeq_writeSeq _ _ _ r lc fun a ha s => readI32_i32Bytes a (ec a ha) s),
      if_not_isEmpty]
  have gi : ∀ r, gatedRead (!m.indices.isEmpty) (readSeq readI32) []
      (gatedEnc (!m.indices.isEmpty) (writeSeq i32Bytes m.indices) ++ r) =
      some (m.indices, r) := fun r => by
    rw [gatedRead_gatedEnc _ (readSeq_writeSeq _ _ _ r li fun a ha s => readI32_i32Bytes a (ei a ha) s),
      if_not_isEmpty]
  have gm : ∀ r, gatedRead (!m.materialIDs.isEmpty) (readSeq readI32) []
      (gatedEnc (!m.materialIDs.isEmpty) (writeSeq i32Bytes m.materialIDs) ++ r) =
      some (m.materialIDs, r) := fun r => by
    rw [gatedRead_gatedEnc _ (readSeq_writeSeq _ _ _ r lm fun a ha s => readI32_i32Bytes a (em a ha) s),
      if_not_isEmpty]
  have hbones : ∀ r, readBones
      ((i32Bytes m.bones_par_vertex ++ (writeSeq u32Bytes m.bone_weights ++
        (writeSeq i32Bytes m.bone_indices ++ (writeSeq strBytes m.bones ++
        writeSeq Mat4.enc m.bindposes)))) ++ r) =
      some ((m.bones_par_vertex, m.bone_weights, m.bone_indices, m.bones, m.bindposes), r) :=
    fun r => by
      simp only [readBones, List.append_assoc, readI32_i32Bytes _ hbpv,
        readSeq_writeSeq _ _ _ _ lw (fun a ha s => readU32_u32Bytes a (ew a ha) s),
        readSeq_writeSeq _ _ _ _ lbi (fun a ha s => readI32_i32Bytes a (ebi a ha) s),
        readSeq_writeSeq _ _ _ _ lb (fun a ha s => readStr_strBytes a (eb a ha) s),
        readSeq_writeSeq _ _ _ _ lbp (fun a ha s => readMat4_enc a (ebp a ha) s),
        Option.some_bind, Option.map_some']
  have gb : ∀ r, gatedRead (!m.bone_weights.isEmpty) readBones (0, [], [], [], [])
      (gatedEnc (!m.bone_weights.isEmpty)
        (i32Bytes m.bones_par_vertex ++ (writeSeq u32Bytes m.bone_weights ++
         (writeSeq i32Bytes m.bone_indices ++ (writeSeq strBytes m.bones ++
         writeSeq Mat4.enc m.bindposes)))) ++ r) =
      some ((m.bones_par_vertex, m.bone_weights, m.bone_indices, m.bones, m.bindposes), r) :=
    fun r => by
      rw [gatedRead_gatedEnc _ (hbones r)]
      rcases hbw : m.bone_weights.isEmpty with _ | _
      · simp
      · obtain ⟨e1, e2, e3, e4⟩ := hp.2.2 hbw
        have : m.bone_weights = [] := by
          cases hl : m.bone_weights
          · rfl
          · rw [hl] at hbw; simp [List.isEmpty] at hbw
        simp [this, e1, e2, e3, e4]
  have grs : ∀ r, gatedRead m.flags.has_refine_settings readRefineSettings
      MeshRefineSettings.initN
      (gatedEnc m.flags.has_refine_settings m.refine_settings.enc ++ r) =
      some (m.refine_settings, r) := fun r => by
    rw [gatedRead_gatedEnc _ (readRefineSettings_enc _ h2 r)]
    rcases hf : m.flags.has_refine_settings with _ | _
    · simp [hp.2.1 hf]
    · simp
  simp only [Mesh.serialize, Mesh.deserialize, Mesh.wireFlags, List.append_assoc,
    transform_deserialize_serialize _ h1,
    readU32_u32Bytes _ (meshDataFlags_pack_lt _), meshDataFlags_unpack_pack,
    Option.some_bind, Option.map_some', gp, gn, gt, gu, gc, gi, gm, gb, grs]
  rw [hp.1]
  simp [Mesh.wireFlags]

theorem mesh_size_eq (m : Mesh Nat) : m.getSerializeSize = m.serialize.length := by
  simp only [Mesh.getSerializeSize, Mesh.serialize, List.length_append,
    gatedEnc_length, transform_size_eq,
    writeSeq_length_const Vec3.enc 12 vec3_enc_length,
    writeSeq_length_const Vec4.enc 16 vec4_enc_length,
    writeSeq_length_const Vec2.enc 8 vec2_enc_length,
    writeSeq_length_const i32Bytes 4 i32Bytes_length,
    writeSeq_length_const u32Bytes 4 u32Bytes_length,
    writeSeq_length_const Mat4.enc 64 mat4_enc_length,
    writeSeq_str_length, refineSettings_enc_length, u32Bytes_length,
    i32Bytes_length]

/-! ### `Scene` -/

/-- Modelled from the spec: the body of `Scene::serialize`: three length-prefixed element sequences, each element
using its own `serialize`. -/
def Scene.serialize (s : Scene Nat) : List Nat :=
  writeSeq Mesh.serialize s.meshes ++ writeSeq Transform.serialize s.transforms ++
  writeSeq Camera.serialize s.cameras

/-- Modelled from the spec: the body of `Scene::getSerializeSize`. -/
def Scene.getSerializeSize (s : Scene Nat) : Nat :=
  (4 + (s.meshes.map Mesh.getSerializeSize).sum) +
  (4 + (s.transforms.map Transform.getSerializeSize).sum) +
  (4 + (s.cameras.map Camera.getSerializeSize).sum)

/-- Modelled from the spec: the body of `Scene::deserialize`: elements are read into freshly constructed
instances. -/
def Scene.deserialize (bs : List Nat) : Option (Scene Nat × List Nat) :=
  (readSeq (Mesh.deserialize Mesh.initN) bs).bind fun ms =>
  (readSeq Transform.deserialize ms.2).bind fun ts =>
  (readSeq Camera.deserialize ts.2).map fun cs => (⟨ms.1, ts.1, cs.1⟩, cs.2)

/-- A scene ready for the wire: every element well-formed, every mesh populated
with no leftover derived outputs. -/
def Scene.wf (s : Scene Nat) : Prop :=
  s.meshes.length < 4294967296 ∧
  (∀ m ∈ s.meshes, m.wf ∧ m.populated ∧ m.submeshes = [] ∧ m.splits = [] ∧
    m.weights4 = []) ∧
  s.transforms.length < 4294967296 ∧ (∀ t ∈ s.transforms, t.wf) ∧
  s.cameras.length < 4294967296 ∧ (∀ c ∈ s.cameras, c.wf)

instance (s : Scene Nat) : Decidable s.wf := by unfold Scene.wf; infer_instance

theorem mesh_deserialize_serialize_fresh (m : Mesh Nat) (hw : m.wf) (hp : m.populated)
    (hs : m.submeshes = []) (hl : m.splits = []) (h4 : m.weights4 = []) (rest : List Nat) :
    Mesh.deserialize Mesh.initN (m.serialize ++ rest) = some (m, rest) := by
  rw [mesh_deserialize_serialize m Mesh.initN hw hp rest]
  cases m with
  | mk tr fl rs pts nms tgs uvs cts idx mids bpv bw bi bns bps sub spl w4 =>
    simp only at hs hl h4
    subst hs; subst hl; subst h4
    rfl

theorem scene_deserialize_serialize (s : Scene Nat) (h : s.wf) (rest : List Nat) :
    Scene.deserialize (s.serialize ++ rest) = some (s, rest) := by
  obtain ⟨lm, em, lt, et, lc, ec⟩ := h
  simp only [Scene.serialize, Scene.deserialize, List.append_assoc,
    readSeq_writeSeq _ _ _ _ lm (fun m hm r =>
      mesh_deserialize_serialize_fresh m (em m hm).1 (em m hm).2.1 (em m hm).2.2.1
        (em m hm).2.2.2.1 (em m hm).2.2.2.2 r),
    readSeq_writeSeq _ _ _ _ lt (fun t ht r => transform_deserialize_serialize t (et t ht) r),
    readSeq_writeSeq _ _ _ _ lc (fun c hc r => camera_deserialize_serialize c (ec c hc) r),
    Option.some_bind, Option.map_some']

theorem scene_size_eq (s : Scene Nat) : s.getSerializeSize = s.serialize.length := by
  simp only [Scene.getSerializeSize, Scene.serialize, List.length_append, writeSeq_length]
  have hm : ∀ (l : List (Mesh Nat)),
      (l.map fun a => a.serialize.length).sum = (l.map Mesh.getSerializeSize).sum := by
    intro l
    induction l with
    | nil => rfl
    | cons a as ih => simp [ih, mesh_size_eq]
  have ht : ∀ (l : List (Transform Nat)),
      (l.map fun a => a.serialize.length).sum = (l.map Transform.getSerializeSize).sum := by
    intro l
    induction l with
    | nil => rfl
    | cons a as ih => simp [ih, transform_size_eq]
  have hc : ∀ (l : List (Camera Nat)),
      (l.map fun a => a.serialize.length).sum = (l.map Camera.getSerializeSize).sum := by
    intro l
    induction l with
    | nil => rfl
    | cons a as ih => simp [ih, camera_size_eq]
  rw [hm, ht, hc]

/-! ### The message layer -/

/-- Fresh `GetMessage` (null completion signal). -/
def GetMessage.initN : GetMessage Nat :=
  ⟨⟨false, false, false, false, false, false, false, false, false⟩,
   MeshRefineSettings.initN, none⟩

/-- Modelled from the spec: the body of `GetMessage::serialize`: the flag word and the refine settings; the
completion signal is non-serializable. -/
def GetMessage.serialize (g : GetMessage Nat) : List Nat :=
  u32Bytes g.flags.pack ++ g.refine_settings.enc

/-- Modelled from the spec: the body of `GetMessage::getSerializeSize`. -/
def GetMessage.getSerializeSize (_ : GetMessage Nat) : Nat := 148

/-- Modelled from the spec: the body of `GetMessage::deserialize` into `recv`: `wait_flag` is left untouched. -/
def GetMessage.deserialize (recv : GetMessage Nat) (bs : List Nat) :
    Option (GetMessage Nat × List Nat) :=
  (readU32 bs).bind fun p =>
  (readRefineSettings p.2).map fun q =>
    (⟨GetFlags.unpack p.1, q.1, recv.wait_flag⟩, q.2)

def GetMessage.wf (g : GetMessage Nat) : Prop := g.refine_settings.wf

instance (g : GetMessage Nat) : Decidable g.wf := by
  unfold GetMessage.wf; infer_instance

theorem getMessage_deserialize_serialize (g recv : GetMessage Nat) (h : g.wf)
    (rest : List Nat) :
    GetMessage.deserialize recv (g.serialize ++ rest) =
      some ({ g with wait_flag := recv.wait_flag }, rest) := by
  simp only [GetMessage.serialize, GetMessage.deserialize, List.append_assoc,
    readU32_u32Bytes _ (getFlags_pack_lt g.flags), readRefineSettings_enc _ h,
    Option.some_bind, Option.map_some', getFlags_unpack_pack]

theorem getMessage_size_eq (g : GetMessage Nat) :
    g.getSerializeSize = g.serialize.length := by
  simp [GetMessage.getSerializeSize, GetMessage.serialize, u32Bytes,
    refineSettings_enc_length]

/-- Modelled from the spec: the body of `SetMessage::serialize`. -/
def SetMessage.serialize (s : SetMessage Nat) : List Nat := s.scene.serialize

/-- Modelled from the spec: the body of `SetMessage::getSerializeSize`. -/
def SetMessage.getSerializeSize (s : SetMessage Nat) : Nat := s.scene.getSerializeSize

/-- Modelled from the spec: the body of `SetMessage::deserialize`. -/
def SetMessage.deserialize (bs : List Nat) : Option (SetMessage Nat × List Nat) :=
  (Scene.deserialize bs).map fun p => (⟨p.1⟩, p.2)

theorem setMessage_deserialize_serialize (s : SetMessage Nat) (h : s.scene.wf)
    (rest : List Nat) :
    SetMessage.deserialize (s.serialize ++ rest) = some (s, rest) := by
  simp only [SetMessage.serialize, SetMessage.deserialize,
    scene_deserialize_serialize _ h, Option.map_some']

/-- `DeleteMessage::Identifier` wire image. -/
def DeleteIdentifier.enc (t : DeleteIdentifier) : List Nat :=
  strBytes t.path ++ i32Bytes t.id

def readIdentifier (bs : List Nat) : Option (DeleteIdentifier × List Nat) :=
  (readStr bs).bind fun p =>
  (readI32 p.2).map fun q => (⟨p.1, q.1⟩, q.2)

def DeleteIdentifier.wf (t : DeleteIdentifier) : Prop :=
  t.path.length < 4294967296 ∧ i32Range t.id

instance (t : DeleteIdentifier) : Decidable t.wf := by
  unfold DeleteIdentifier.wf; infer_instance

theorem readIdentifier_enc (t : DeleteIdentifier) (h : t.wf) (rest : List Nat) :
    readIdentifier (t.enc ++ rest) = some (t, rest) := by
  obtain ⟨h1, h2⟩ := h
  simp only [DeleteIdentifier.enc, readIdentifier, List.append_assoc,
    readStr_strBytes _ h1, readI32_i32Bytes _ h2, Option.some_bind, Option.map_some']

/-- Modelled from the spec: the body of `DeleteMessage::serialize`: the ordered target list. -/
def DeleteMessage.serialize (d : DeleteMessage) : List Nat :=
  writeSeq DeleteIdentifier.enc d.targets

/-- Modelled from the spec: the body of `DeleteMessage::getSerializeSize`. -/
def DeleteMessage.getSerializeSize (d : DeleteMessage) : Nat :=
  4 + (d.targets.map fun t => (4 + t.path.length) + 4).sum

/-- Modelled from the spec: the body of `DeleteMessage::deserialize`. -/
def DeleteMessage.deserialize (bs : List Nat) : Option (DeleteMessage × List Nat) :=
  (readSeq readIdentifier bs).map fun p => (⟨p.1⟩, p.2)

def DeleteMessage.wf (d : DeleteMessage) : Prop :=
  d.targets.length < 4294967296 ∧ ∀ t ∈ d.targets, t.wf

instance (d : DeleteMessage) : Decidable d.wf := by
  unfold DeleteMessage.wf; infer_instance

theorem deleteMessage_deserialize_serialize (d : DeleteMessage) (h : d.wf)
    (rest : List Nat) :
    DeleteMessage.deserialize (d.serialize ++ rest) = some (d, rest) := by
  obtain ⟨h1, h2⟩ := h
  simp only [DeleteMessage.serialize, DeleteMessage.deserialize,
    readSeq_writeSeq _ _ _ _ h1 (fun t ht r => readIdentifier_enc t (h2 t ht) r),
    Option.map_some']

theorem deleteMessage_size_eq (d : DeleteMessage) :
    d.getSerializeSize = d.serialize.length := by
  simp only [DeleteMessage.getSerializeSize, DeleteMessage.serialize, writeSeq_length]
  congr 1
  refine congrArg List.sum (List.map_congr_left ?_)
  intro t _
  simp [DeleteIdentifier.enc, strBytes_length, i32Bytes, u32Bytes]

/-- Fresh `ScreenshotMessage`. -/
def ScreenshotMessage.initN : ScreenshotMessage := ⟨none⟩

/-- Modelled from the spec: the body of `ScreenshotMessage::serialize`: no payload. -/
def ScreenshotMessage.serialize (_ : ScreenshotMessage) : List Nat := []

/-- Modelled from the spec: the body of `ScreenshotMessage::getSerializeSize`. -/
def ScreenshotMessage.getSerializeSize (_ : ScreenshotMessage) : Nat := 0

/-- Modelled from the spec: the body of `ScreenshotMessage::deserialize` into `recv`: nothing to read; the
completion signal is left untouched. -/
def ScreenshotMessage.deserialize (recv : ScreenshotMessage) (bs : List Nat) :
    Option (ScreenshotMessage × List Nat) :=
  some (⟨recv.wait_flag⟩, bs)

/-- The `u32` wire tag of each `MessageType` enumerator (declaration order). -/
def MessageType.tag : MessageType → Nat
  | .Unknown => 0
  | .Get => 1
  | .Post => 2
  | .Delete => 3
  | .Screenshot => 4

/-- The type tag each concrete message variant is framed with (`SetMessage`
travels under the `Post` tag). -/
def Message.typeOf : Message Nat → MessageType
  | .get _ => .Get
  | .set _ => .Post
  | .del _ => .Delete
  | .screenshot _ => .Screenshot

/-- The payload: the variant's own `serialize` output. -/
def Message.payload : Message Nat → List Nat
  | .get g => g.serialize
  | .set s => s.serialize
  | .del d => d.serialize
  | .screenshot s => s.serialize

/-- Modelled from the spec: wire framing per message,
`[u32 type tag][u32 payload size][payload]`. -/
def Message.frame (msg : Message Nat) : List Nat :=
  u32Bytes msg.typeOf.tag ++ u32Bytes msg.payload.length ++ msg.payload

/-- Modelled from the spec: the dispatcher reads the type tag, constructs the
matching fresh variant, and invokes its `deserialize` on the payload. -/
def Message.readFrame (bs : List Nat) : Option (Message Nat × List Nat) :=
  (readU32 bs).bind fun t =>
  (readU32 t.2).bind fun n =>
  if t.1 = 1 then
    (GetMessage.deserialize GetMessage.initN n.2).map fun p => (Message.get p.1, p.2)
  else if t.1 = 2 then
    (SetMessage.deserialize n.2).map fun p => (Message.set p.1, p.2)
  else if t.1 = 3 then
    (DeleteMessage.deserialize n.2).map fun p => (Message.del p.1, p.2)
  else if t.1 = 4 then
    (ScreenshotMessage.deserialize ScreenshotMessage.initN n.2).map fun p =>
      (Message.screenshot p.1, p.2)
  else none

/-- `Message`-level size: the variant's own `getSerializeSize`. -/
def Message.getSerializeSize : Message Nat → Nat
  | .get g => g.getSerializeSize
  | .set s => s.getSerializeSize
  | .del d => d.getSerializeSize
  | .screenshot s => s.getSerializeSize

/-- A message ready for the wire: its payload well-formed and its completion
signal (when it has one) still unset, as freshly constructed. -/
def Message.wf : Message Nat → Prop
  | .get g => g.wf ∧ g.wait_flag = none
  | .set s => s.scene.wf
  | .del d => d.wf
  | .screenshot s => s.wait_flag = none

instance (msg : Message Nat) : Decidable msg.wf := by
  cases msg <;> simp only [Message.wf] <;> infer_instance

/-- `readU32` always consumes exactly the 4 bytes `u32Bytes` wrote, whatever
the value. -/
theorem readU32_u32Bytes_any (n : Nat) (rest : List Nat) :
    readU32 (u32Bytes n ++ rest) = some (n % 4294967296, rest) := by
  simp only [u32Bytes, List.cons_append, List.nil_append, readU32, Option.some.injEq,
    Prod.mk.injEq, and_true]
  omega

/-- Frame round-trip: the dispatcher reconstructs the message variant
field-for-field. -/
theorem Message.readFrame_frame (msg : Message Nat) (h : msg.wf) (rest : List Nat) :
    Message.readFrame (msg.frame ++ rest) = some (msg, rest) := by
  cases msg with
  | get g =>
      obtain ⟨h1, h2⟩ := h
      simp only [Message.frame, Message.payload, Message.typeOf, MessageType.tag,
        List.append_assoc, Message.readFrame,
        readU32_u32Bytes _ (by norm_num : (1 : Nat) < 4294967296),
        readU32_u32Bytes_any, Option.some_bind,
        getMessage_deserialize_serialize g GetMessage.initN h1, Option.map_some',
        if_true, reduceIte]
      rw [show (GetMessage.initN.wait_flag : Option Int) = none from rfl, ← h2]
  | set s =>
      simp only [Message.frame, Message.payload, Message.typeOf, MessageType.tag,
        List.append_assoc, Message.readFrame,
        readU32_u32Bytes _ (by norm_num : (2 : Nat) < 4294967296),
        readU32_u32Bytes_any, Option.some_bind,
        setMessage_deserialize_serialize s h, Option.map_some', reduceIte]
      norm_num
  | del d =>
      simp only [Message.frame, Message.payload, Message.typeOf, MessageType.tag,
        List.append_assoc, Message.readFrame,
        readU32_u32Bytes _ (by norm_num : (3 : Nat) < 4294967296),
        readU32_u32Bytes_any, Option.some_bind,
        deleteMessage_deserialize_serialize d h, Option.map_some', reduceIte]
      norm_num
  | screenshot s =>
      simp only [Message.frame, Message.payload, Message.typeOf, MessageType.tag,
        List.append_assoc, Message.readFrame,
        readU32_u32Bytes _ (by norm_num : (4 : Nat) < 4294967296),
        readU32_u32Bytes_any, Option.some_bind, ScreenshotMessage.serialize,
        ScreenshotMessage.deserialize, Option.map_some', reduceIte]
      norm_num
      rw [show ScreenshotMessage.initN.wait_flag = (none : Option Int) from rfl]
      have h2 : s.wait_flag = none := h
      rw [← h2]

/-- `SetMessage::getSerializeSize` equals its byte count. -/
theorem setMessage_size_eq (s : SetMessage Nat) :
    s.getSerializeSize = s.serialize.length := by
  simp [SetMessage.getSerializeSize, SetMessage.serialize, scene_size_eq]

/-- `Message`-level size agreement with the payload. -/
theorem message_size_eq (msg : Message Nat) :
    msg.getSerializeSize = msg.payload.length := by
  cases msg with
  | get g => exact getMessage_size_eq g
  | set s => exact setMessage_size_eq s
  | del d => exact deleteMessage_size_eq d
  | screenshot s => rfl

/-! ### Concrete example values (used by the witnesses) -/

/-- A small populated `Transform`. -/
def tEx : Transform Nat :=
  { id := 5, path := [110, 111, 100, 101], transform := TRS.initN }

/-- A small populated `Camera`. -/
def cEx : Camera Nat := { toTransform := tEx, fov := f32thirty }

/-- A small populated `Mesh`: one triangle, consistent flags. -/
def mEx : Mesh Nat :=
  { id := 7, path := [109], transform := TRS.initN
    flags := ⟨true, false, true, true, true, false, false, false, false, false⟩
    refine_settings := MeshRefineSettings.initN
    points := [⟨0, 0, 0⟩, ⟨f32one, 0, 0⟩, ⟨0, f32one, 0⟩]
    normals := [], tangents := [], uv := []
    counts := [3], indices := [0, 1, 2], materialIDs := []
    bones_par_vertex := 0, bone_weights := [], bone_indices := [], bones := []
    bindposes := [], submeshes := [], splits := [], weights4 := [] }

/-- A one-of-each `Scene`. -/
def sceneEx : Scene Nat := ⟨[mEx], [tEx], [cEx]⟩

/-- A fresh `GetMessage` example. -/
def gmEx : GetMessage Nat :=
  ⟨⟨true, true, false, false, false, true, false, false, false⟩,
   MeshRefineSettings.initN, none⟩

/-- A framed message example. -/
def msgEx : Message Nat := Message.get gmEx

/-! ## The geometry pipeline, over exact rationals

Modelled from the spec: `Mesh::refine`, `Mesh::applyMirror` and
`Mesh::applyTransform` are declared in the header but their bodies are not in
the repository; the stage behaviour below follows the specification's
description of the refinement pipeline.  Scalars are `ℚ`, so the algebraic
identities (mirror involution, winding restoration, split exactness) hold
exactly; the float implementation matches them up to rounding. -/

def Vec3.vadd (a b : Vec3 ℚ) : Vec3 ℚ := ⟨a.x + b.x, a.y + b.y, a.z + b.z⟩

def Vec3.vsub (a b : Vec3 ℚ) : Vec3 ℚ := ⟨a.x - b.x, a.y - b.y, a.z - b.z⟩

def Vec3.scale (q : ℚ) (v : Vec3 ℚ) : Vec3 ℚ := ⟨q * v.x, q * v.y, q * v.z⟩

def Vec3.dot (a b : Vec3 ℚ) : ℚ := a.x * b.x + a.y * b.y + a.z * b.z

def Vec3.cross (a b : Vec3 ℚ) : Vec3 ℚ :=
  ⟨a.y * b.z - a.z * b.y, a.z * b.x - a.x * b.z, a.x * b.y - a.y * b.x⟩

def Vec3.zeroQ : Vec3 ℚ := ⟨0, 0, 0⟩

/-- Sum of a list of vectors. -/
def vsum (l : List (Vec3 ℚ)) : Vec3 ℚ := l.foldl Vec3.vadd Vec3.zeroQ

/-- Reflection of a point across the plane `{x | x ⬝ n = d}` (unit `n`). -/
def reflectPoint (n : Vec3 ℚ) (d : ℚ) (p : Vec3 ℚ) : Vec3 ℚ :=
  p.vsub (Vec3.scale (2 * (p.dot n - d)) n)

/-- Reflection of a direction across the plane through the origin. -/
def reflectDir (n : Vec3 ℚ) (v : Vec3 ℚ) : Vec3 ℚ :=
  v.vsub (Vec3.scale (2 * (v.dot n)) n)

theorem reflectPoint_involutive (n : Vec3 ℚ) (d : ℚ) (h : n.dot n = 1) (p : Vec3 ℚ) :
    reflectPoint n d (reflectPoint n d p) = p := by
  obtain ⟨nx, ny, nz⟩ := n
  obtain ⟨px, py, pz⟩ := p
  simp only [Vec3.dot] at h
  simp only [reflectPoint, Vec3.dot, Vec3.vsub, Vec3.scale, Vec3.mk.injEq]
  refine ⟨?_, ?_, ?_⟩
  · linear_combination (4 * nx * (px * nx + py * ny + pz * nz - d)) * h
  · linear_combination (4 * ny * (px * nx + py * ny + pz * nz - d)) * h
  · linear_combination (4 * nz * (px * nx + py * ny + pz * nz - d)) * h

theorem reflectDir_involutive (n : Vec3 ℚ) (h : n.dot n = 1) (v : Vec3 ℚ) :
    reflectDir n (reflectDir n v) = v := by
  have h2 := reflectPoint_involutive n 0 h v
  simp only [reflectPoint, sub_zero] at h2
  simpa only [reflectDir] using h2

/-- Partition the flattened index buffer into per-face index lists using the
per-face vertex counts. -/
def facesOf : List Int → List Int → List (List Int)
  | [], _ => []
  | c :: cs, idx => idx.take c.toNat :: facesOf cs (idx.drop c.toNat)

/-- Reverse the winding of every face. -/
def reverseWinding (counts idx : List Int) : List Int :=
  ((facesOf counts idx).map List.reverse).flatten

theorem facesOf_append (c : Int) (cs : List Int) (f rest : List Int)
    (hf : f.length = c.toNat) :
    facesOf (c :: cs) (f ++ rest) = f :: facesOf cs rest := by
  rw [facesOf, ← hf, List.take_left, List.drop_left]

theorem reverseWinding_involutive (counts idx : List Int)
    (h : (counts.map Int.toNat).sum = idx.length) :
    reverseWinding counts (reverseWinding counts idx) = idx := by
  induction counts generalizing idx with
  | nil =>
      simp only [List.map_nil, List.sum_nil] at h
      rw [show idx = [] from (List.eq_nil_of_length_eq_zero h.symm)]
      rfl
  | cons c cs ih =>
      simp only [List.map_cons, List.sum_cons] at h
      have hc : c.toNat ≤ idx.length := by omega
      have h1 : (idx.take c.toNat).length = c.toNat := by
        rw [List.length_take]; omega
      rw [show reverseWinding (c :: cs) idx =
            (idx.take c.toNat).reverse ++ reverseWinding cs (idx.drop c.toNat) from by
          rw [reverseWinding, facesOf, List.map_cons, List.flatten_cons]; rfl]
      rw [show reverseWinding (c :: cs)
            ((idx.take c.toNat).reverse ++ reverseWinding cs (idx.drop c.toNat)) =
          (idx.take c.toNat).reverse.reverse ++
            reverseWinding cs (reverseWinding cs (idx.drop c.toNat)) from by
        rw [reverseWinding,
          facesOf_append c cs (idx.take c.toNat).reverse _ (by simp [h1]),
          List.map_cons, List.flatten_cons]; rfl]
      rw [List.reverse_reverse, ih (idx.drop c.toNat) (by simp; omega)]
      exact List.take_append_drop _ idx

/-- Modelled from the spec: the body of `Mesh::applyMirror`: reflect points and normals across the plane
`(plane_n, plane_d)` and reverse the winding of every face to preserve outward
orientation. -/
def Mesh.applyMirror (m : Mesh ℚ) (plane_n : Vec3 ℚ) (plane_d : ℚ) : Mesh ℚ :=
  { m with points := m.points.map (reflectPoint plane_n plane_d)
           normals := m.normals.map (reflectDir plane_n)
           indices := reverseWinding m.counts m.indices }

/-! ### Triangulation -/

/-- Fan decomposition around the face's first vertex. -/
def fanTris (i0 : Int) : List Int → List (Int × Int × Int)
  | a :: b :: rest => (i0, a, b) :: fanTris i0 (b :: rest)
  | _ => []

/-- Fan-decompose a face. -/
def fanFace : List Int → List (Int × Int × Int)
  | i0 :: rest => fanTris i0 rest
  | [] => []

/-- One ear-clipping pass: after an ear `(apex, prev, cur)` is clipped the
ring continues from `cur`. -/
def earClipStep (apex : Int) : Int → List Int → List (Int × Int × Int)
  | _, [] => []
  | c, d :: rest => (apex, c, d) :: earClipStep apex d rest

/-- Ear clipping on the index ring: each round clips the ear at the ring's
first vertex (the source's geometric ear test needs vertex positions; on the
index ring the first ear is clipped each round). -/
def earClipFace : List Int → List (Int × Int × Int)
  | a :: b :: c :: rest => (a, b, c) :: earClipStep a c rest
  | _ => []

/-- Triangulate one polygon face: fan decomposition for counts 3–4,
ear clipping above; sub-triangle faces produce nothing. -/
def triangulateFace (face : List Int) : List (Int × Int × Int) :=
  if face.length ≤ 4 then fanFace face else earClipFace face

/-- Triangulate a face list into a pure triangle list. -/
def triangulateAll (faces : List (List Int)) : List (Int × Int × Int) :=
  (faces.map triangulateFace).flatten

/-- Non-fatal geometry anomalies, routed to the warning log. -/
inductive GeometryWarning where
  | degenerateFace (count : Nat)
  | degenerateUV
deriving DecidableEq, Repr

/-- One warning per face with fewer than 3 vertices. -/
def triangulationWarnings (faces : List (List Int)) : List GeometryWarning :=
  (faces.filter fun f => f.length < 3).map fun f => GeometryWarning.degenerateFace f.length

/-- The vertices the triangles visit, flattened. -/
def vertsOfTris (ts : List (Int × Int × Int)) : List Int :=
  ts.flatMap fun t => [t.1, t.2.1, t.2.2]

theorem earClipStep_eq_fanTris (apex : Int) (l : List Int) :
    ∀ c : Int, earClipStep apex c l = fanTris apex (c :: l) := by
  induction l with
  | nil => intro c; rfl
  | cons d rest ih =>
      intro c
      rw [earClipStep, ih d]
      rfl

theorem earClipFace_eq_fanFace (face : List Int) : earClipFace face = fanFace face := by
  match face with
  | [] => rfl
  | [i0] => rfl
  | [i0, i1] => rfl
  | i0 :: i1 :: i2 :: rest =>
      rw [earClipFace, earClipStep_eq_fanTris i0 rest i2]
      rfl

theorem fanTris_length (i0 : Int) (l : List Int) :
    (fanTris i0 l).length = l.length - 1 := by
  induction l with
  | nil => rfl
  | cons a rest ih =>
      cases rest with
      | nil => rfl
      | cons b rs =>
          rw [fanTris]
          simp only [List.length_cons] at ih ⊢
          omega

theorem triangulateFace_length (face : List Int) (h : 3 ≤ face.length) :
    (triangulateFace face).length = face.length - 2 := by
  have hfan : (fanFace face).length = face.length - 2 := by
    cases face with
    | nil => simp at h
    | cons i0 rest =>
        rw [fanFace, fanTris_length]
        simp only [List.length_cons]
        omega
  by_cases h4 : face.length ≤ 4
  · rw [triangulateFace, if_pos h4]; exact hfan
  · rw [triangulateFace, if_neg h4, earClipFace_eq_fanFace]; exact hfan

theorem triangulateFace_small (face : List Int) (h : face.length < 3) :
    triangulateFace face = [] := by
  match face with
  | [] => rfl
  | [a] => rfl
  | [a, b] => rfl
  | a :: b :: c :: rest =>
      simp only [List.length_cons] at h
      omega

/-! ### The split stage

Partition the triangle list into chunks bounded by the `split_unit` vertex
budget, preserving the triangle (hence submesh/material) order, with indices
remapped split-local. -/

/-- A triangle in global vertex indices, tagged with its material. -/
structure BTri where
  a : Int
  b : Int
  c : Int
  mat : Int
deriving DecidableEq, Repr

/-- One split under construction: the table of global vertices backing the
split-local slots, and the triangles in split-local indices, each with its
material. -/
structure BuildSplit where
  vtab : List Int
  tris : List ((Nat × Nat × Nat) × Int)
deriving DecidableEq, Repr

/-- Append a vertex to the table unless it is already present. -/
def addIfAbsent (l : List Int) (y : Int) : List Int := if y ∈ l then l else l ++ [y]

/-- Extend the vertex table with the triangle's vertices not yet present. -/
def extendTab (vtab : List Int) (t : BTri) : List Int :=
  addIfAbsent (addIfAbsent (addIfAbsent vtab t.a) t.b) t.c

/-- The split-local slot of a global vertex. -/
def locOf (vtab : List Int) (g : Int) : Nat := vtab.indexOf g

def BuildSplit.empty : BuildSplit := ⟨[], []⟩

/-- The greedy builder's state: finished splits and the one being filled. -/
structure SplitAcc where
  done : List BuildSplit
  cur : BuildSplit
deriving DecidableEq, Repr

/-- Push one triangle: extend the current split while it stays within the
vertex budget `N`, otherwise flush it and start a new split with this
triangle. -/
def pushTri (N : Nat) (acc : SplitAcc) (t : BTri) : SplitAcc :=
  let ext := extendTab acc.cur.vtab t
  if ext.length ≤ N then
    ⟨acc.done,
     ⟨ext, acc.cur.tris ++ [((locOf ext t.a, locOf ext t.b, locOf ext t.c), t.mat)]⟩⟩
  else
    let fresh := extendTab [] t
    ⟨acc.done ++ [acc.cur],
     ⟨fresh, [((locOf fresh t.a, locOf fresh t.b, locOf fresh t.c), t.mat)]⟩⟩

/-- Greedy vertex-budgeted split of a triangle list. -/
def buildSplits (N : Nat) (ts : List BTri) : List BuildSplit :=
  let acc := ts.foldl (pushTri N) ⟨[], BuildSplit.empty⟩
  if acc.cur.tris.isEmpty then acc.done else acc.done ++ [acc.cur]

/-- Map a built split's triangles back to global indices. -/
def BuildSplit.remap (s : BuildSplit) : List BTri :=
  s.tris.map fun p =>
    ⟨s.vtab.getD p.1.1 0, s.vtab.getD p.1.2.1 0, s.vtab.getD p.1.2.2 0, p.2⟩

/-- The union (in order) of all remapped split triangles. -/
def unSplit (ss : List BuildSplit) : List BTri := (ss.map BuildSplit.remap).flatten

theorem getD_append_left {l1 l2 : List Int} (i : Nat) (d : Int) (h : i < l1.length) :
    (l1 ++ l2).getD i d = l1.getD i d := by
  rw [List.getD_eq_getElem?_getD, List.getElem?_append_left h,
    ← List.getD_eq_getElem?_getD]

theorem getD_locOf (vtab : List Int) (g : Int) (h : g ∈ vtab) :
    vtab.getD (locOf vtab g) 0 = g := by
  rw [locOf, List.getD_eq_getElem _ _ (List.indexOf_lt_length.mpr h)]
  exact List.getElem_indexOf _

theorem locOf_lt (vtab : List Int) (g : Int) (h : g ∈ vtab) :
    locOf vtab g < vtab.length :=
  List.indexOf_lt_length.mpr h

theorem mem_addIfAbsent_self (l : List Int) (y : Int) : y ∈ addIfAbsent l y := by
  unfold addIfAbsent
  split_ifs with h
  · exact h
  · simp

theorem mem_addIfAbsent_mono (l : List Int) (y x : Int) (h : x ∈ l) :
    x ∈ addIfAbsent l y := by
  unfold addIfAbsent
  split_ifs
  · exact h
  · exact List.mem_append_left _ h

theorem addIfAbsent_prefix (l : List Int) (y : Int) :
    ∃ tl, addIfAbsent l y = l ++ tl := by
  unfold addIfAbsent
  split_ifs
  · exact ⟨[], by simp⟩
  · exact ⟨[y], rfl⟩

theorem addIfAbsent_length (l : List Int) (y : Int) :
    (addIfAbsent l y).length ≤ l.length + 1 := by
  unfold addIfAbsent
  split_ifs <;> simp

theorem extendTab_prefix (vtab : List Int) (t : BTri) :
    ∃ tl, extendTab vtab t = vtab ++ tl := by
  obtain ⟨t1, h1⟩ := addIfAbsent_prefix vtab t.a
  obtain ⟨t2, h2⟩ := addIfAbsent_prefix (addIfAbsent vtab t.a) t.b
  obtain ⟨t3, h3⟩ := addIfAbsent_prefix (addIfAbsent (addIfAbsent vtab t.a) t.b) t.c
  exact ⟨t1 ++ t2 ++ t3, by rw [extendTab, h3, h2, h1]; simp⟩

theorem mem_extendTab (vtab : List Int) (t : BTri) :
    t.a ∈ extendTab vtab t ∧ t.b ∈ extendTab vtab t ∧ t.c ∈ extendTab vtab t := by
  refine ⟨?_, ?_, ?_⟩
  · exact mem_addIfAbsent_mono _ _ _
      (mem_addIfAbsent_mono _ _ _ (mem_addIfAbsent_self _ _))
  · exact mem_addIfAbsent_mono _ _ _ (mem_addIfAbsent_self _ _)
  · exact mem_addIfAbsent_self _ _

theorem extendTab_length (vtab : List Int) (t : BTri) :
    (extendTab vtab t).length ≤ vtab.length + 3 := by
  have h1 := addIfAbsent_length vtab t.a
  have h2 := addIfAbsent_length (addIfAbsent vtab t.a) t.b
  have h3 := addIfAbsent_length (addIfAbsent (addIfAbsent vtab t.a) t.b) t.c
  rw [extendTab]
  omega

theorem extendTab_nil_length (t : BTri) (N : Nat) (h3 : 3 ≤ N) :
    (extendTab [] t).length ≤ N := by
  have := extendTab_length [] t
  simp only [List.length_nil, Nat.zero_add] at this
  omega

/-- Validity of a built split: every stored local index is in range. -/
def BuildSplit.ok (s : BuildSplit) : Prop :=
  ∀ p ∈ s.tris, p.1.1 < s.vtab.length ∧ p.1.2.1 < s.vtab.length ∧
    p.1.2.2 < s.vtab.length

/-- Extending the vertex table does not change how the existing triangles
remap. -/
theorem remap_extendTab (s : BuildSplit) (tl : List Int) (hok : s.ok) :
    BuildSplit.remap ⟨s.vtab ++ tl, s.tris⟩ = s.remap := by
  unfold BuildSplit.remap
  apply List.map_congr_left
  intro p hp
  obtain ⟨h1, h2, h3⟩ := hok p hp
  rw [getD_append_left _ _ h1, getD_append_left _ _ h2, getD_append_left _ _ h3]

/-- The builder invariant: every split within budget and index-valid. -/
def accOk (N : Nat) (acc : SplitAcc) : Prop :=
  acc.cur.ok ∧ acc.cur.vtab.length ≤ N ∧
  ∀ s ∈ acc.done, s.ok ∧ s.vtab.length ≤ N

/-- All triangles the builder state holds, remapped, in order. -/
def accOut (acc : SplitAcc) : List BTri := unSplit acc.done ++ acc.cur.remap

theorem pushTri_step (N : Nat) (acc : SplitAcc) (t : BTri) (h3 : 3 ≤ N)
    (h : accOk N acc) :
    accOut (pushTri N acc t) = accOut acc ++ [t] ∧ accOk N (pushTri N acc t) := by
  obtain ⟨hok, hlen, hdone⟩ := h
  obtain ⟨ha, hb, hc⟩ := mem_extendTab acc.cur.vtab t
  obtain ⟨hfa, hfb, hfc⟩ := mem_extendTab [] t
  obtain ⟨tl, htl⟩ := extendTab_prefix acc.cur.vtab t
  by_cases hfit : (extendTab acc.cur.vtab t).length ≤ N
  · rw [pushTri, if_pos hfit]
    constructor
    · simp only [accOut, List.append_assoc]
      congr 1
      show BuildSplit.remap ⟨extendTab acc.cur.vtab t,
          acc.cur.tris ++ [((locOf (extendTab acc.cur.vtab t) t.a,
            locOf (extendTab acc.cur.vtab t) t.b,
            locOf (extendTab acc.cur.vtab t) t.c), t.mat)]⟩ =
        acc.cur.remap ++ [t]
      rw [show BuildSplit.remap ⟨extendTab acc.cur.vtab t,
            acc.cur.tris ++ [((locOf (extendTab acc.cur.vtab t) t.a,
              locOf (extendTab acc.cur.vtab t) t.b,
              locOf (extendTab acc.cur.vtab t) t.c), t.mat)]⟩ =
          BuildSplit.remap ⟨extendTab acc.cur.vtab t, acc.cur.tris⟩ ++
            BuildSplit.remap ⟨extendTab acc.cur.vtab t,
              [((locOf (extendTab acc.cur.vtab t) t.a,
                locOf (extendTab acc.cur.vtab t) t.b,
                locOf (extendTab acc.cur.vtab t) t.c), t.mat)]⟩ from by
        unfold BuildSplit.remap; exact List.map_append _ _ _]
      rw [htl, remap_extendTab acc.cur tl hok, ← htl]
      congr 1
      unfold BuildSplit.remap
      simp only [List.map_cons, List.map_nil]
      rw [getD_locOf _ _ ha, getD_locOf _ _ hb, getD_locOf _ _ hc]
    · refine ⟨?_, hfit, hdone⟩
      intro p hp
      rcases List.mem_append.mp hp with hold | hnew
      · obtain ⟨h1, h2, h3⟩ := hok p hold
        rw [htl]
        simp only [List.length_append]
        exact ⟨by omega, by omega, by omega⟩
      · simp only [List.mem_singleton] at hnew
        subst hnew
        exact ⟨locOf_lt _ _ ha, locOf_lt _ _ hb, locOf_lt _ _ hc⟩
  · rw [pushTri, if_neg hfit]
    constructor
    · simp only [accOut, unSplit, List.map_append, List.flatten_append,
        List.map_cons, List.map_nil, List.flatten_cons, List.flatten_nil,
        List.append_nil, List.append_assoc]
      congr 1
      congr 1
      show BuildSplit.remap ⟨extendTab [] t,
          [((locOf (extendTab [] t) t.a, locOf (extendTab [] t) t.b,
             locOf (extendTab [] t) t.c), t.mat)]⟩ = [t]
      unfold BuildSplit.remap
      simp only [List.map_cons, List.map_nil]
      rw [getD_locOf _ _ hfa, getD_locOf _ _ hfb, getD_locOf _ _ hfc]
    · refine ⟨?_, extendTab_nil_length t N h3, ?_⟩
      · intro p hp
        simp only [List.mem_singleton] at hp
        subst hp
        exact ⟨locOf_lt _ _ hfa, locOf_lt _ _ hfb, locOf_lt _ _ hfc⟩
      · intro s hs
        rcases List.mem_append.mp hs with hold | hnew
        · exact hdone s hold
        · simp only [List.mem_singleton] at hnew
          subst hnew
          exact ⟨hok, hlen⟩

theorem foldl_pushTri (N : Nat) (ts : List BTri) (h3 : 3 ≤ N) :
    ∀ acc, accOk N acc →
      accOut (ts.foldl (pushTri N) acc) = accOut acc ++ ts ∧
      accOk N (ts.foldl (pushTri N) acc) := by
  induction ts with
  | nil => intro acc h; exact ⟨by simp, h⟩
  | cons t rest ih =>
      intro acc h
      obtain ⟨hstep, hok⟩ := pushTri_step N acc t h3 h
      obtain ⟨hout, hok2⟩ := ih (pushTri N acc t) hok
      rw [List.foldl_cons] at *
      exact ⟨by rw [hout, hstep, List.append_assoc]; rfl, hok2⟩

/-- Exactness and budget of the greedy split, for any budget that can hold one
triangle. -/
theorem buildSplits_exact (N : Nat) (ts : List BTri) (h3 : 3 ≤ N) :
    unSplit (buildSplits N ts) = ts ∧
    ∀ s ∈ buildSplits N ts, s.vtab.length ≤ N := by
  have h0 : accOk N ⟨[], BuildSplit.empty⟩ :=
    ⟨fun p hp => absurd hp (List.not_mem_nil p), by simp [BuildSplit.empty],
     fun s hs => absurd hs (List.not_mem_nil s)⟩
  have h := foldl_pushTri N ts h3 ⟨[], BuildSplit.empty⟩ h0
  have hout := h.1
  have hacc := h.2
  unfold accOk at hacc
  obtain ⟨hcur, hclen, hdone⟩ := hacc
  rw [show accOut ⟨[], BuildSplit.empty⟩ = [] from rfl, List.nil_append] at hout
  constructor
  · rw [buildSplits]
    by_cases he : (List.foldl (pushTri N) ⟨[], BuildSplit.empty⟩ ts).cur.tris.isEmpty
    · rw [if_pos he]
      rw [accOut] at hout
      have : (List.foldl (pushTri N) ⟨[], BuildSplit.empty⟩ ts).cur.remap = [] := by
        unfold BuildSplit.remap
        rw [List.isEmpty_iff.mp he]
        rfl
      rw [this, List.append_nil] at hout
      exact hout
    · rw [if_neg he]
      rw [accOut] at hout
      rw [unSplit, List.map_append, List.flatten_append]
      simp only [List.map_cons, List.map_nil, List.flatten_cons, List.flatten_nil,
        List.append_nil]
      exact hout
  · intro s hs
    rw [buildSplits] at hs
    by_cases he : (List.foldl (pushTri N) ⟨[], BuildSplit.empty⟩ ts).cur.tris.isEmpty
    · rw [if_pos he] at hs
      exact (hdone s hs).2
    · rw [if_neg he] at hs
      rcases List.mem_append.mp hs with hold | hnew
      · exact (hdone s hold).2
      · simp only [List.mem_singleton] at hnew
        subst hnew
        exact hclen

/-! ### Tangent generation (UV-gradient method) -/

/-- The UV-area determinant of one triangle. -/
def uvDet (u0 u1 u2 : Vec2 ℚ) : ℚ :=
  (u1.x - u0.x) * (u2.y - u0.y) - (u2.x - u0.x) * (u1.y - u0.y)

/-- Per-triangle tangent via the UV-gradient method; a degenerate UV triangle
yields the zero tangent (non-fatal). -/
def triTangent (p0 p1 p2 : Vec3 ℚ) (u0 u1 u2 : Vec2 ℚ) : Vec3 ℚ :=
  let r := uvDet u0 u1 u2
  if r = 0 then Vec3.zeroQ
  else Vec3.scale (1 / r)
    ((Vec3.scale (u2.y - u0.y) (p1.vsub p0)).vsub (Vec3.scale (u1.y - u0.y) (p2.vsub p0)))

/-! ### Refinement pipeline stages -/

/-- Apply a `float4x4` (column-major) to a point (`w = 1`). -/
def Mat4.mulPoint (M : Mat4 ℚ) (p : Vec3 ℚ) : Vec3 ℚ :=
  ⟨M.c0.x * p.x + M.c1.x * p.y + M.c2.x * p.z + M.c3.x,
   M.c0.y * p.x + M.c1.y * p.y + M.c2.y * p.z + M.c3.y,
   M.c0.z * p.x + M.c1.z * p.y + M.c2.z * p.z + M.c3.z⟩

/-- Apply only the linear part to a direction (`w = 0`). -/
def Mat4.mulDir (M : Mat4 ℚ) (v : Vec3 ℚ) : Vec3 ℚ :=
  ⟨M.c0.x * v.x + M.c1.x * v.y + M.c2.x * v.z,
   M.c0.y * v.x + M.c1.y * v.y + M.c2.y * v.z,
   M.c0.z * v.x + M.c1.z * v.y + M.c2.z * v.z⟩

/-- The linear part's columns. -/
def Mat4.linearCols (M : Mat4 ℚ) : Vec3 ℚ × Vec3 ℚ × Vec3 ℚ :=
  (⟨M.c0.x, M.c0.y, M.c0.z⟩, ⟨M.c1.x, M.c1.y, M.c1.z⟩, ⟨M.c2.x, M.c2.y, M.c2.z⟩)

/-- Transform a normal by the inverse-transpose of the linear part (via the
adjugate; left unchanged when the matrix is singular). -/
def Mat4.mulNormal (M : Mat4 ℚ) (n : Vec3 ℚ) : Vec3 ℚ :=
  let a := M.linearCols.1
  let b := M.linearCols.2.1
  let c := M.linearCols.2.2
  let det := a.dot (b.cross c)
  if det = 0 then n
  else Vec3.scale (1 / det)
    ((Vec3.scale n.x (b.cross c)).vadd
      ((Vec3.scale n.y (c.cross a)).vadd (Vec3.scale n.z (a.cross b))))

/-- Modelled from the spec: the body of `Mesh::applyTransform`: points by the matrix, normals by the
inverse-transpose of its linear part. -/
def Mesh.applyTransform (m : Mesh ℚ) (t : Mat4 ℚ) : Mesh ℚ :=
  { m with points := m.points.map t.mulPoint
           normals := m.normals.map t.mulNormal }

/-- Stage 3, destructive: bind-pose-deform points/normals by the per-vertex
bone weights, then drop the skin buffers — the mesh becomes static. -/
def Mesh.bakeSkin (m : Mesh ℚ) : Mesh ℚ :=
  if m.bone_weights.isEmpty ∨ m.bones_par_vertex ≤ 0 then m else
  let bpv := m.bones_par_vertex.toNat
  let deform := fun (mul : Mat4 ℚ → Vec3 ℚ → Vec3 ℚ) (i : Nat) (v : Vec3 ℚ) =>
    vsum ((List.range bpv).map fun k =>
      Vec3.scale (m.bone_weights.getD (i * bpv + k) 0)
        (mul (m.bindposes.getD (m.bone_indices.getD (i * bpv + k) 0).toNat
          Mat4.identity) v))
  { m with points := m.points.mapIdx fun i v => deform Mat4.mulPoint i v
           normals := m.normals.mapIdx fun i v => deform Mat4.mulDir i v
           bones_par_vertex := 0, bone_weights := [], bone_indices := []
           bones := [], bindposes := [] }

/-- Stage 4a, destructive: negate one axis of points, normals and tangents. -/
def Mesh.swapHandedness (m : Mesh ℚ) : Mesh ℚ :=
  { m with points := m.points.map fun p => ⟨-p.x, p.y, p.z⟩
           normals := m.normals.map fun n => ⟨-n.x, n.y, n.z⟩
           tangents := m.tangents.map fun t => ⟨-t.x, t.y, t.z, -t.w⟩ }

/-- Stage 4b, destructive: reverse the winding of every face. -/
def Mesh.swapFaces (m : Mesh ℚ) : Mesh ℚ :=
  { m with indices := reverseWinding m.counts m.indices }

/-- Metasequoia-equivalent flag: flip the `v` texture coordinate. -/
def Mesh.invertVStage (m : Mesh ℚ) : Mesh ℚ :=
  { m with uv := m.uv.map fun u => ⟨u.x, 1 - u.y⟩ }

/-- Stage 5: replace the polygon faces with the pure triangle list, expanding
the per-face materials per triangle. -/
def Mesh.triangulateStage (m : Mesh ℚ) : Mesh ℚ :=
  let faces := facesOf m.counts m.indices
  let tris := triangulateAll faces
  { m with counts := List.replicate tris.length 3
           indices := vertsOfTris tris
           materialIDs := ((faces.zip m.materialIDs).map fun p =>
             List.replicate (triangulateFace p.1).length p.2).flatten }

/-- The (unnormalized, hence area-weighted) normal of a face. -/
def faceNormal (pts : List (Vec3 ℚ)) (f : List Int) : Vec3 ℚ :=
  let p0 := pts.getD (f.getD 0 0).toNat Vec3.zeroQ
  let p1 := pts.getD (f.getD 1 0).toNat Vec3.zeroQ
  let p2 := pts.getD (f.getD 2 0).toNat Vec3.zeroQ
  (p1.vsub p0).cross (p2.vsub p0)

/-- Stage 6 (plain): per-face normals accumulated to the vertices, weighted by
face area (the cross product's magnitude). -/
def Mesh.genNormalsStage (m : Mesh ℚ) : Mesh ℚ :=
  let faces := facesOf m.counts m.indices
  { m with normals := ((List.range m.points.length).map fun i =>
      vsum ((faces.filter fun f => decide ((i : Int) ∈ f)).map (faceNormal m.points))) }

/-- Polynomial cosine (the float code evaluates `cos` numerically; its exact
value is irrational, so the model uses the degree-6 Taylor approximation). -/
def cosQ (x : ℚ) : ℚ := 1 - x ^ 2 / 2 + x ^ 4 / 24 - x ^ 6 / 720

/-- Whether the angle between two (unnormalized) normals exceeds `a`, decided
through the cosine with squared comparisons to stay in rational arithmetic. -/
def exceedsAngle (n1 n2 : Vec3 ℚ) (a : ℚ) : Bool :=
  let c := cosQ a
  let d := n1.dot n2
  let l2 := (n1.dot n1) * (n2.dot n2)
  if 0 ≤ c then
    if d < 0 then true else decide (d * d < l2 * c * c)
  else
    if 0 ≤ d then false else decide (d * d > l2 * c * c)

/-- Rewrite one face, giving corners of hard vertices fresh indices starting
at `next`; returns the face, the next fresh index, and the source vertex of
each allocated duplicate, in order. -/
def splitFaceC (hard : Int → Bool) : Nat → List Int → List Int × Nat × List Int
  | next, [] => ([], next, [])
  | next, i :: is =>
      if hard i then
        let r := splitFaceC hard (next + 1) is
        ((next : Int) :: r.1, r.2.1, i :: r.2.2)
      else
        let r := splitFaceC hard next is
        (i :: r.1, r.2.1, r.2.2)

/-- Rewrite every face, threading the fresh-index counter. -/
def splitFacesC (hard : Int → Bool) : Nat → List (List Int) → List (List Int) × List Int
  | _, [] => ([], [])
  | next, f :: fs =>
      let r := splitFaceC hard next f
      let rs := splitFacesC hard r.2.1 fs
      (r.1 :: rs.1, r.2.2 ++ rs.2)

/-- Stage 6 (smooth-angle variant): first split vertices whose incident faces
disagree by more than `smooth_angle` (hard-edge detection — this can increase
the vertex count), then accumulate normals on the new topology. -/
def Mesh.genNormalsSmoothStage (m : Mesh ℚ) (a : ℚ) : Mesh ℚ :=
  let faces := facesOf m.counts m.indices
  let inc := fun (i : Int) => faces.filter fun f => decide (i ∈ f)
  let hard := fun (i : Int) =>
    (inc i).any fun f => (inc i).any fun g =>
      exceedsAngle (faceNormal m.points f) (faceNormal m.points g) a
  let r := splitFacesC hard m.points.length faces
  let pts2 := m.points ++ r.2.map fun g => m.points.getD g.toNat Vec3.zeroQ
  Mesh.genNormalsStage { m with points := pts2, indices := r.1.flatten }

/-- Stage 7: per-vertex tangents accumulated from the per-triangle UV-gradient
tangents; requires normals and uv; a vertex whose triangles are all
UV-degenerate gets the zero tangent. -/
def Mesh.genTangentsStage (m : Mesh ℚ) : Mesh ℚ :=
  if m.uv.isEmpty ∨ m.normals.isEmpty then m else
  let tris := triangulateAll (facesOf m.counts m.indices)
  let tangentAt := fun (i : Nat) =>
    vsum ((tris.filter fun t =>
        decide (t.1 = (i : Int) ∨ t.2.1 = (i : Int) ∨ t.2.2 = (i : Int))).map fun t =>
      triTangent (m.points.getD t.1.toNat Vec3.zeroQ)
        (m.points.getD t.2.1.toNat Vec3.zeroQ) (m.points.getD t.2.2.toNat Vec3.zeroQ)
        (m.uv.getD t.1.toNat ⟨0, 0⟩) (m.uv.getD t.2.1.toNat ⟨0, 0⟩)
        (m.uv.getD t.2.2.toNat ⟨0, 0⟩))
  { m with tangents := (List.range m.points.length).map fun i =>
      let t := tangentAt i
      ⟨t.x, t.y, t.z, if t = Vec3.zeroQ then 0 else 1⟩ }

/-- Stage 8: multiply all positions by `scale_factor`. -/
def Mesh.scaleStage (f : ℚ) (m : Mesh ℚ) : Mesh ℚ :=
  { m with points := m.points.map (Vec3.scale f) }

/-- First-occurrence deduplication. -/
def uniqKeys {κ : Type} [DecidableEq κ] : List κ → List κ
  | [] => []
  | k :: ks => k :: uniqKeys (ks.filter fun x => x ≠ k)
termination_by l => l.length
decreasing_by
  have := List.length_filter_le (fun x => decide (x ≠ k)) ks
  simp only [List.length_cons]
  omega

/-- The merge key of a vertex: position, normal, tangent and uv. -/
def vertexKey (m : Mesh ℚ) (i : Nat) :
    Vec3 ℚ × Option (Vec3 ℚ) × Option (Vec4 ℚ) × Option (Vec2 ℚ) :=
  (m.points.getD i Vec3.zeroQ, m.normals[i]?, m.tangents[i]?, m.uv[i]?)

/-- Stage 9: best-effort merge of vertices identical in
position/normal/tangent/uv (the float epsilon is modelled exact). -/
def Mesh.optimizeStage (m : Mesh ℚ) : Mesh ℚ :=
  let keys := (List.range m.points.length).map (vertexKey m)
  let uniq := uniqKeys keys
  { m with points := uniq.map fun k => k.1
           normals := if m.normals.isEmpty then [] else
             uniq.map fun k => k.2.1.getD Vec3.zeroQ
           tangents := if m.tangents.isEmpty then [] else
             uniq.map fun k => k.2.2.1.getD ⟨0, 0, 0, 0⟩
           uv := if m.uv.isEmpty then [] else uniq.map fun k => k.2.2.2.getD ⟨0, 0⟩
           indices := m.indices.map fun g => (uniq.indexOf (vertexKey m g.toNat) : Int) }

/-- The global material-grouped submesh table: one submesh per distinct
material, in first-appearance order. -/
def submeshesOf (m : Mesh ℚ) : List SubmeshData :=
  if m.materialIDs.isEmpty then [⟨m.indices, 0⟩] else
  let faces := facesOf m.counts m.indices
  (uniqKeys m.materialIDs).map fun mt =>
    ⟨(((faces.zip m.materialIDs).filter fun p => decide (p.2 = mt)).map
        fun p => p.1).flatten, mt⟩

/-- The mesh's triangles, each tagged with its face's material. -/
def Mesh.btris (m : Mesh ℚ) : List BTri :=
  let faces := facesOf m.counts m.indices
  (List.range faces.length).flatMap fun j =>
    (triangulateFace (faces.getD j [])).map fun t =>
      ⟨t.1, t.2.1, t.2.2, m.materialIDs.getD j 0⟩

/-- A split's own material-grouped submesh table, in split-local indices. -/
def splitSubmeshes (b : BuildSplit) : List SubmeshData :=
  (uniqKeys (b.tris.map fun p => p.2)).map fun mt =>
    ⟨(b.tris.filter fun p => decide (p.2 = mt)).flatMap fun p =>
       [(p.1.1 : Int), (p.1.2.1 : Int), (p.1.2.2 : Int)], mt⟩

/-- Materialize one built split as a self-contained `SplitData`. -/
def toSplitData (m : Mesh ℚ) (b : BuildSplit) : SplitData ℚ :=
  { points := b.vtab.map fun g => m.points.getD g.toNat Vec3.zeroQ
    normals := if m.normals.isEmpty then [] else
      b.vtab.map fun g => m.normals.getD g.toNat Vec3.zeroQ
    tangents := if m.tangents.isEmpty then [] else
      b.vtab.map fun g => m.tangents.getD g.toNat ⟨0, 0, 0, 0⟩
    uv := if m.uv.isEmpty then [] else b.vtab.map fun g => m.uv.getD g.toNat ⟨0, 0⟩
    indices := b.tris.flatMap fun p =>
      [(p.1.1 : Int), (p.1.2.1 : Int), (p.1.2.2 : Int)]
    submeshes := splitSubmeshes b }

/-- Stage 10: greedy vertex-budgeted split into render-ready chunks. -/
def Mesh.splitStage (N : Int) (m : Mesh ℚ) : List (SplitData ℚ) :=
  (buildSplits N.toNat m.btris).map (toSplitData m)

/-- The single chunk produced when the split stage is disabled. -/
def Mesh.wholeSplit (m : Mesh ℚ) : SplitData ℚ :=
  ⟨m.points, m.normals, m.tangents, m.uv, m.indices, submeshesOf m⟩

/-- The fixed 4-wide top skin weights per vertex, for GPU skinning. -/
def Mesh.weights4Of (m : Mesh ℚ) : List (Weights4 ℚ) :=
  if m.bone_weights.isEmpty ∨ m.bones_par_vertex ≤ 0 then [] else
  let bpv := m.bones_par_vertex.toNat
  (List.range m.points.length).map fun i =>
    let pairs := (List.range bpv).map fun k =>
      (m.bone_weights.getD (i * bpv + k) 0, m.bone_indices.getD (i * bpv + k) 0)
    let sorted := pairs.mergeSort fun p q => decide (q.1 ≤ p.1)
    ⟨(sorted.getD 0 (0, 0)).1, (sorted.getD 1 (0, 0)).1, (sorted.getD 2 (0, 0)).1,
     (sorted.getD 3 (0, 0)).1, (sorted.getD 0 (0, 0)).2, (sorted.getD 1 (0, 0)).2,
     (sorted.getD 2 (0, 0)).2, (sorted.getD 3 (0, 0)).2⟩

/-- Stages 3–4, the documented destructive stages: they mutate the authoring
buffers of the instance itself. -/
def Mesh.destructive (m : Mesh ℚ) : Mesh ℚ :=
  let s := m.refine_settings.flags
  let m3 := if s.bake_skin then m.bakeSkin else m
  let m4 := if s.swap_handedness then m3.swapHandedness else m3
  if s.swap_faces then m4.swapFaces else m4

/-- The non-destructive stages in the spec's order (coordinate transform,
mirroring, uv flip, triangulation, normal/tangent generation, scale, topology
optimization), over a working copy feeding the split output. -/
def Mesh.refineWork (m : Mesh ℚ) : Mesh ℚ :=
  let s := m.refine_settings
  let w1 := if s.flags.apply_local2world then m.applyTransform s.local2world
            else if s.flags.apply_world2local then m.applyTransform s.world2local
            else m
  let w2 := if s.flags.mirror_x then w1.applyMirror ⟨1, 0, 0⟩ 0 else w1
  let w3 := if s.flags.mirror_y then w2.applyMirror ⟨0, 1, 0⟩ 0 else w2
  let w4 := if s.flags.mirror_z then w3.applyMirror ⟨0, 0, 1⟩ 0 else w3
  let w5 := if s.flags.invert_v then w4.invertVStage else w4
  let w6 := if s.flags.triangulate then w5.triangulateStage else w5
  let w7 := if s.flags.gen_normals_with_smooth_angle then
              w6.genNormalsSmoothStage s.smooth_angle
            else if s.flags.gen_normals then w6.genNormalsStage else w6
  let w8 := if s.flags.gen_tangents then w7.genTangentsStage else w7
  let w9 := Mesh.scaleStage s.scale_factor w8
  if s.flags.optimize_topology then w9.optimizeStage else w9

/-- Modelled from the spec: the body of `Mesh::refine`: run the destructive stages on the instance itself, derive
the render-ready outputs through the working pipeline, and store them in the
non-serialized derived members; nothing else on the instance is touched. -/
def Mesh.refine (m : Mesh ℚ) : Mesh ℚ :=
  let m4 := m.destructive
  let w := m4.refineWork
  { m4 with submeshes := submeshesOf w
            splits := if m.refine_settings.flags.split then
                Mesh.splitStage m.refine_settings.split_unit w
              else [w.wholeSplit]
            weights4 := m.weights4Of }

/-- A small concrete rational mesh: one triangle face. -/
def mQEx : Mesh ℚ :=
  { id := 1, path := [113], transform := TRS.init
    flags := ⟨true, false, true, true, true, false, false, false, false, false⟩
    refine_settings := MeshRefineSettings.init
    points := [⟨1, 2, 3⟩, ⟨4, 5, 6⟩, ⟨7, 8, 9⟩]
    normals := [⟨1, 0, 0⟩, ⟨0, 1, 0⟩, ⟨0, 0, 1⟩]
    tangents := [], uv := [], counts := [3], indices := [0, 2, 1]
    materialIDs := [0]
    bones_par_vertex := 0, bone_weights := [], bone_indices := [], bones := []
    bindposes := [], submeshes := [], splits := [], weights4 := [] }

/-- `mQEx` with the split stage enabled and a vertex budget of 1 — smaller
than one triangle. -/
def mSplitEx : Mesh ℚ :=
  { mQEx with refine_settings :=
      { MeshRefineSettings.init with
          flags := { MeshRefineFlags.init with split := true }
          split_unit := 1 } }

/-- `mQEx` with the split stage enabled and a vertex budget of 3. -/
def mSplitEx3 : Mesh ℚ :=
  { mQEx with refine_settings :=
      { MeshRefineSettings.init with
          flags := { MeshRefineFlags.init with split := true }
          split_unit := 3 } }

/-! ## Claim theorems -/

/-- C1: for every populated `Transform`, `Camera`, `Mesh`, `Scene` and
`Message` value `x`, deserializing `serialize x` restores `x` field-for-field
(a mesh's non-serialized derived outputs are those of the receiving instance,
which the codec never touches), and `getSerializeSize x` is exactly the number
of bytes `serialize x` writes; sizes are pure functions of the value. -/
theorem C1_serialize_roundtrip :
    (∀ (t : Transform Nat) (rest : List Nat), t.wf →
      Transform.deserialize (t.serialize ++ rest) = some (t, rest) ∧
      t.getSerializeSize = t.serialize.length) ∧
    (∀ (c : Camera Nat) (rest : List Nat), c.wf →
      Camera.deserialize (c.serialize ++ rest) = some (c, rest) ∧
      c.getSerializeSize = c.serialize.length) ∧
    (∀ (m recv : Mesh Nat) (rest : List Nat), m.wf → m.populated →
      Mesh.deserialize recv (m.serialize ++ rest) =
        some ({ m with submeshes := recv.submeshes, splits := recv.splits
                       weights4 := recv.weights4 }, rest) ∧
      m.getSerializeSize = m.serialize.length) ∧
    (∀ (s : Scene Nat) (rest : List Nat), s.wf →
      Scene.deserialize (s.serialize ++ rest) = some (s, rest) ∧
      s.getSerializeSize = s.serialize.length) ∧
    (∀ (msg : Message Nat) (rest : List Nat), msg.wf →
      Message.readFrame (msg.frame ++ rest) = some (msg, rest) ∧
      msg.getSerializeSize = msg.payload.length) :=
  ⟨fun t rest h => ⟨transform_deserialize_serialize t h rest, transform_size_eq t⟩,
   fun c rest h => ⟨camera_deserialize_serialize c h rest, camera_size_eq c⟩,
   fun m recv rest hw hp => ⟨mesh_deserialize_serialize m recv hw hp rest, mesh_size_eq m⟩,
   fun s rest h => ⟨scene_deserialize_serialize s h rest, scene_size_eq s⟩,
   fun msg rest h => ⟨Message.readFrame_frame msg h rest, message_size_eq msg⟩⟩

/-- C1 witness: the round-trip evaluated on concrete populated values. -/
theorem C1_serialize_roundtrip_witness :
    (Transform.deserialize (tEx.serialize ++ [9]) = some (tEx, [9])) ∧
    (Camera.deserialize (cEx.serialize ++ []) = some (cEx, [])) ∧
    (Mesh.deserialize Mesh.initN (mEx.serialize ++ [1, 2]) =
      some ({ mEx with submeshes := Mesh.initN.submeshes, splits := Mesh.initN.splits
                       weights4 := Mesh.initN.weights4 }, [1, 2])) ∧
    (mEx.getSerializeSize = mEx.serialize.length) ∧
    (Scene.deserialize (sceneEx.serialize ++ []) = some (sceneEx, [])) ∧
    (Message.readFrame (msgEx.frame ++ []) = some (msgEx, [])) :=
  ⟨(C1_serialize_roundtrip.1 tEx [9] (by decide)).1,
   (C1_serialize_roundtrip.2.1 cEx [] (by decide)).1,
   (C1_serialize_roundtrip.2.2.1 mEx Mesh.initN [1, 2] (by decide) (by decide)).1,
   (C1_serialize_roundtrip.2.2.1 mEx Mesh.initN [1, 2] (by decide) (by decide)).2,
   (C1_serialize_roundtrip.2.2.2.1 sceneEx [] (by decide)).1,
   (C1_serialize_roundtrip.2.2.2.2 msgEx [] (by decide)).1⟩

/-- C2: after deserializing what `serialize` wrote, each buffer presence flag
equals that buffer's non-emptiness; `has_refine_settings` (whose "buffer" is
the refine-settings block) equals whether that section followed in the stream,
and the whole flag word equals the one `serialize` computed and wrote
(`wireFlags`), whose bits gate exactly the sections serialize emits. -/
theorem C2_flag_consistency (m recv : Mesh Nat) (rest : List Nat)
    (hw : m.wf) (hp : m.populated) :
    ∃ m2, Mesh.deserialize recv (m.serialize ++ rest) = some (m2, rest) ∧
      m2.flags.has_points = !m2.points.isEmpty ∧
      m2.flags.has_normals = !m2.normals.isEmpty ∧
      m2.flags.has_tangents = !m2.tangents.isEmpty ∧
      m2.flags.has_uv = !m2.uv.isEmpty ∧
      m2.flags.has_counts = !m2.counts.isEmpty ∧
      m2.flags.has_indices = !m2.indices.isEmpty ∧
      m2.flags.has_materialIDs = !m2.materialIDs.isEmpty ∧
      m2.flags.has_bones = !m2.bone_weights.isEmpty ∧
      m2.flags.has_refine_settings = m.flags.has_refine_settings ∧
      m2.flags = m.wireFlags := by
  exact ⟨_, mesh_deserialize_serialize m recv hw hp rest,
    congrArg MeshDataFlags.has_points hp.1, congrArg MeshDataFlags.has_normals hp.1,
    congrArg MeshDataFlags.has_tangents hp.1, congrArg MeshDataFlags.has_uv hp.1,
    congrArg MeshDataFlags.has_counts hp.1, congrArg MeshDataFlags.has_indices hp.1,
    congrArg MeshDataFlags.has_materialIDs hp.1, congrArg MeshDataFlags.has_bones hp.1,
    congrArg MeshDataFlags.has_refine_settings (congrArg (fun _ => m.flags) hp.1), hp.1⟩

/-- C2 witness: flag consistency evaluated on a concrete mesh. -/
theorem C2_flag_consistency_witness :
    ∃ m2, Mesh.deserialize Mesh.initN (mEx.serialize ++ []) = some (m2, []) ∧
      m2.flags.has_points = !m2.points.isEmpty ∧
      m2.flags.has_normals = !m2.normals.isEmpty ∧
      m2.flags.has_tangents = !m2.tangents.isEmpty ∧
      m2.flags.has_uv = !m2.uv.isEmpty ∧
      m2.flags.has_counts = !m2.counts.isEmpty ∧
      m2.flags.has_indices = !m2.indices.isEmpty ∧
      m2.flags.has_materialIDs = !m2.materialIDs.isEmpty ∧
      m2.flags.has_bones = !m2.bone_weights.isEmpty ∧
      m2.flags.has_refine_settings = mEx.flags.has_refine_settings ∧
      m2.flags = mEx.wireFlags :=
  C2_flag_consistency mEx Mesh.initN [] (by decide) (by decide)

/-- C8: the message layer is the closed variant set
{`Get`, `Set`, `Delete`, `Screenshot`} (the source's tag enum names the `Set`
variant's tag `Post` and keeps an `Unknown` sentinel that no variant uses);
every wire frame is `[u32 type tag][u32 payload size][payload bytes]`, and the
four variants carry the four distinct non-`Unknown` tags. -/
theorem C8_message_variants :
    (∀ msg : Message Nat,
      (∃ g, msg = Message.get g) ∨ (∃ s, msg = Message.set s) ∨
      (∃ d, msg = Message.del d) ∨ (∃ s, msg = Message.screenshot s)) ∧
    (∀ msg : Message Nat,
      msg.frame = u32Bytes msg.typeOf.tag ++ u32Bytes msg.payload.length ++ msg.payload) ∧
    (∀ msg : Message Nat, msg.getSerializeSize = msg.payload.length) ∧
    (∀ g : GetMessage Nat, (Message.get g).typeOf = MessageType.Get) ∧
    (∀ s : SetMessage Nat, (Message.set s).typeOf = MessageType.Post) ∧
    (∀ d : DeleteMessage, (Message.del d).typeOf = MessageType.Delete) ∧
    (∀ s : ScreenshotMessage, (Message.screenshot s).typeOf = MessageType.Screenshot) ∧
    MessageType.Unknown.tag = 0 ∧ MessageType.Get.tag = 1 ∧ MessageType.Post.tag = 2 ∧
    MessageType.Delete.tag = 3 ∧ MessageType.Screenshot.tag = 4 :=
  ⟨fun msg => by
      cases msg with
      | get g => exact Or.inl ⟨g, rfl⟩
      | set s => exact Or.inr (Or.inl ⟨s, rfl⟩)
      | del d => exact Or.inr (Or.inr (Or.inl ⟨d, rfl⟩))
      | screenshot s => exact Or.inr (Or.inr (Or.inr ⟨s, rfl⟩)),
   fun _ => rfl, message_size_eq,
   fun _ => rfl, fun _ => rfl, fun _ => rfl, fun _ => rfl,
   rfl, rfl, rfl, rfl, rfl⟩

/-- C9: the completion signal of `GetMessage` and `ScreenshotMessage` is
excluded from serialization: `getSerializeSize` does not count it, `serialize`
does not write it, and `deserialize` leaves the receiving instance's
`wait_flag` unchanged. -/
theorem C9_wait_flag_excluded :
    (∀ (g : GetMessage Nat) (w : Option Int),
      GetMessage.serialize { g with wait_flag := w } = GetMessage.serialize g ∧
      GetMessage.getSerializeSize { g with wait_flag := w } = g.getSerializeSize) ∧
    (∀ (recv : GetMessage Nat) (bs : List Nat) (res : GetMessage Nat × List Nat),
      GetMessage.deserialize recv bs = some res → res.1.wait_flag = recv.wait_flag) ∧
    (∀ (s : ScreenshotMessage) (w : Option Int),
      ScreenshotMessage.serialize { s with wait_flag := w } = ScreenshotMessage.serialize s ∧
      ScreenshotMessage.getSerializeSize { s with wait_flag := w } = s.getSerializeSize) ∧
    (∀ (recv : ScreenshotMessage) (bs : List Nat) (res : ScreenshotMessage × List Nat),
      ScreenshotMessage.deserialize recv bs = some res →
        res.1.wait_flag = recv.wait_flag) := by
  refine ⟨fun g w => ⟨rfl, rfl⟩, ?_, fun s w => ⟨rfl, rfl⟩, ?_⟩
  · intro recv bs res h
    simp only [GetMessage.deserialize, Option.bind_eq_some, Option.map_eq_some'] at h
    obtain ⟨p, hp, q, hq, hres⟩ := h
    rw [← hres]
  · intro recv bs res h
    simp only [ScreenshotMessage.deserialize, Option.some.injEq] at h
    rw [← h]

/-- C9 witness: evaluated with a set completion signal on a concrete stream. -/
theorem C9_wait_flag_excluded_witness :
    (GetMessage.deserialize { gmEx with wait_flag := some 7 } (gmEx.serialize ++ []) =
        some ({ gmEx with wait_flag := some 7 }, []) →
      ({ gmEx with wait_flag := some 7 } : GetMessage Nat).wait_flag =
        ({ gmEx with wait_flag := some 7 } : GetMessage Nat).wait_flag) ∧
    (ScreenshotMessage.deserialize ⟨some 3⟩ [8] = some (⟨some 3⟩, [8]) →
      (⟨some 3⟩ : ScreenshotMessage).wait_flag = (⟨some 3⟩ : ScreenshotMessage).wait_flag) :=
  ⟨fun h => C9_wait_flag_excluded.2.1 { gmEx with wait_flag := some 7 }
      (gmEx.serialize ++ []) ({ gmEx with wait_flag := some 7 }, []) h,
   fun h => C9_wait_flag_excluded.2.2.2 ⟨some 3⟩ [8] (⟨some 3⟩, [8]) h⟩

/-- C10: the header's member initializers — a default `Camera` has
`fov = 30.0`, a default `TRS` has all-ones scale and identity rotation
`(0,0,0,1)`, and a default `MeshRefineSettings` has every stage flag off,
`scale_factor = 1.0`, `smooth_angle = 0.0` and `split_unit = 65000`. -/
theorem C10_defaults :
    Camera.init.fov = 30 ∧
    TRS.init.scale = ⟨1, 1, 1⟩ ∧
    TRS.init.rotation = ⟨0, 0, 0, 1⟩ ∧
    MeshRefineSettings.init.flags.split = false ∧
    MeshRefineSettings.init.flags.triangulate = false ∧
    MeshRefineSettings.init.flags.optimize_topology = false ∧
    MeshRefineSettings.init.flags.swap_handedness = false ∧
    MeshRefineSettings.init.flags.swap_faces = false ∧
    MeshRefineSettings.init.flags.gen_normals = false ∧
    MeshRefineSettings.init.flags.gen_normals_with_smooth_angle = false ∧
    MeshRefineSettings.init.flags.gen_tangents = false ∧
    MeshRefineSettings.init.flags.apply_local2world = false ∧
    MeshRefineSettings.init.flags.apply_world2local = false ∧
    MeshRefineSettings.init.flags.bake_skin = false ∧
    MeshRefineSettings.init.flags.invert_v = false ∧
    MeshRefineSettings.init.flags.mirror_x = false ∧
    MeshRefineSettings.init.flags.mirror_y = false ∧
    MeshRefineSettings.init.flags.mirror_z = false ∧
    MeshRefineSettings.init.scale_factor = 1 ∧
    MeshRefineSettings.init.smooth_angle = 0 ∧
    MeshRefineSettings.init.split_unit = 65000 :=
  ⟨rfl, rfl, rfl, rfl, rfl, rfl, rfl, rfl, rfl, rfl, rfl, rfl, rfl, rfl, rfl,
   rfl, rfl, rfl, rfl, rfl, rfl⟩

/-- C6: applying `applyMirror` twice with the same plane (unit normal,
offset) restores the original mesh exactly — point positions, normals and
face winding — over exact rationals (hence within numeric epsilon in
floats). -/
theorem C6_mirror_involution (m : Mesh ℚ) (n : Vec3 ℚ) (d : ℚ)
    (hn : n.dot n = 1) (hc : (m.counts.map Int.toNat).sum = m.indices.length) :
    (m.applyMirror n d).applyMirror n d = m := by
  cases m with
  | mk tr fl rs pts nms tgs uvs cts idx mids bpv bw bi bns bps sub spl w4 =>
    simp only at hc
    simp only [Mesh.applyMirror, List.map_map, Mesh.mk.injEq, and_true, true_and]
    refine ⟨?_, ?_, ?_⟩
    · rw [show (reflectPoint n d) ∘ (reflectPoint n d) =
            fun p => reflectPoint n d (reflectPoint n d p) from rfl]
      rw [List.map_congr_left fun p _ => reflectPoint_involutive n d hn p]
      exact List.map_id pts
    · rw [show (reflectDir n) ∘ (reflectDir n) =
            fun v => reflectDir n (reflectDir n v) from rfl]
      rw [List.map_congr_left fun v _ => reflectDir_involutive n hn v]
      exact List.map_id nms
    · exact reverseWinding_involutive cts idx hc

/-- C6 witness: the double mirror evaluated on a concrete mesh and plane. -/
theorem C6_mirror_involution_witness :
    (mQEx.applyMirror ⟨0, 0, 1⟩ 5).applyMirror ⟨0, 0, 1⟩ 5 = mQEx :=
  C6_mirror_involution mQEx ⟨0, 0, 1⟩ 5 (by norm_num [Vec3.dot]) (by decide)

/-- C4: a quad face (count 4, indices `[a,b,c,d]`) triangulates into exactly
the 2 fan triangles `(a,b,c)` and `(a,c,d)`; together they visit all 4 source
vertices, and each triangle's vertex order is a subsequence of the source
face's order (winding consistent); faces of count 3–4 are fan-decomposed,
faces of count > 4 are ear-clipped, and every face of count ≥ 3 yields a pure
triangle list of `count − 2` triangles. -/
theorem C4_quad_triangulation :
    (∀ a b c d : Int,
      triangulateFace [a, b, c, d] = [(a, b, c), (a, c, d)] ∧
      (triangulateFace [a, b, c, d]).length = 2 ∧
      triangulateAll (facesOf [4] [a, b, c, d]) = [(a, b, c), (a, c, d)] ∧
      vertsOfTris (triangulateFace [a, b, c, d]) = [a, b, c, a, c, d] ∧
      a ∈ vertsOfTris (triangulateFace [a, b, c, d]) ∧
      b ∈ vertsOfTris (triangulateFace [a, b, c, d]) ∧
      c ∈ vertsOfTris (triangulateFace [a, b, c, d]) ∧
      d ∈ vertsOfTris (triangulateFace [a, b, c, d]) ∧
      [a, b, c].Sublist [a, b, c, d] ∧ [a, c, d].Sublist [a, b, c, d]) ∧
    (∀ face : List Int, face.length ≤ 4 → triangulateFace face = fanFace face) ∧
    (∀ face : List Int, 4 < face.length → triangulateFace face = earClipFace face) ∧
    (∀ face : List Int, 3 ≤ face.length →
      (triangulateFace face).length = face.length - 2) := by
  refine ⟨fun a b c d => ⟨rfl, rfl, rfl, rfl, ?_, ?_, ?_, ?_, ?_, ?_⟩, ?_, ?_,
    triangulateFace_length⟩
  · show a ∈ [a, b, c, a, c, d]; simp
  · show b ∈ [a, b, c, a, c, d]; simp
  · show c ∈ [a, b, c, a, c, d]; simp
  · show d ∈ [a, b, c, a, c, d]; simp
  · exact List.sublist_append_left [a, b, c] [d]
  · exact List.Sublist.cons₂ a (List.Sublist.cons b (List.Sublist.refl [c, d]))
  · intro face h; rw [triangulateFace, if_pos h]
  · intro face h; rw [triangulateFace, if_neg (by omega)]

/-- C4 witness: the general parts evaluated at concrete faces. -/
theorem C4_quad_triangulation_witness :
    triangulateFace [(3 : Int), 1, 4, 1] = [(3, 1, 4), (3, 4, 1)] ∧
    triangulateFace [(0 : Int), 1, 2] = fanFace [0, 1, 2] ∧
    triangulateFace [(0 : Int), 1, 2, 3, 4] = earClipFace [0, 1, 2, 3, 4] ∧
    (triangulateFace [(0 : Int), 1, 2, 3, 4]).length = 5 - 2 :=
  ⟨(C4_quad_triangulation.1 3 1 4 1).1,
   C4_quad_triangulation.2.1 [0, 1, 2] (by decide),
   C4_quad_triangulation.2.2.1 [0, 1, 2, 3, 4] (by decide),
   C4_quad_triangulation.2.2.2 [0, 1, 2, 3, 4] (by decide)⟩

/-- C5: sub-triangle faces (count < 3) contribute nothing to the triangle
output — triangulation of a face list equals triangulation of the list with
them dropped — and produce exactly one warning each; a degenerate UV triangle
yields the zero tangent; both computations are total, so the pipeline
continues past the offending element. -/
theorem C5_degenerate_warnings :
    (∀ faces : List (List Int),
      triangulateAll faces = triangulateAll (faces.filter fun f => 3 ≤ f.length) ∧
      (triangulationWarnings faces).length =
        (faces.filter fun f => f.length < 3).length) ∧
    (∀ face : List Int, face.length < 3 → triangulateFace face = []) ∧
    (∀ (p0 p1 p2 : Vec3 ℚ) (u0 u1 u2 : Vec2 ℚ),
      uvDet u0 u1 u2 = 0 → triTangent p0 p1 p2 u0 u1 u2 = Vec3.zeroQ) := by
  refine ⟨fun faces => ⟨?_, ?_⟩, triangulateFace_small, ?_⟩
  · induction faces with
    | nil => rfl
    | cons f fs ih =>
        by_cases hf : 3 ≤ f.length
        · rw [show List.filter (fun g => decide (3 ≤ g.length)) (f :: fs) =
                f :: List.filter (fun g => decide (3 ≤ g.length)) fs from
              List.filter_cons_of_pos (by simp [hf]),
            show triangulateAll (f :: fs) =
              triangulateFace f ++ triangulateAll fs from rfl,
            show triangulateAll (f :: List.filter (fun g => decide (3 ≤ g.length)) fs) =
              triangulateFace f ++
                triangulateAll (List.filter (fun g => decide (3 ≤ g.length)) fs) from rfl,
            ih]
        · rw [show List.filter (fun g => decide (3 ≤ g.length)) (f :: fs) =
                List.filter (fun g => decide (3 ≤ g.length)) fs from
              List.filter_cons_of_neg (by simp [hf]),
            show triangulateAll (f :: fs) =
              triangulateFace f ++ triangulateAll fs from rfl,
            triangulateFace_small f (by omega), ih, List.nil_append]
  · simp [triangulationWarnings]
  · intro p0 p1 p2 u0 u1 u2 h
    simp [triTangent, h]

/-- C5 witness: a face list with a degenerate 2-gon and a degenerate-UV
triangle, evaluated concretely. -/
theorem C5_degenerate_warnings_witness :
    (triangulateAll [[0, 1], [0, 1, 2]] =
      triangulateAll ([[0, 1], [0, 1, 2]].filter fun f => 3 ≤ f.length)) ∧
    (triangulationWarnings [[(0 : Int), 1], [0, 1, 2]]).length = 1 ∧
    triangulateFace [(7 : Int), 8] = [] ∧
    triTangent ⟨1, 2, 3⟩ ⟨4, 5, 6⟩ ⟨7, 8, 10⟩ ⟨2, 2⟩ ⟨2, 2⟩ ⟨2, 2⟩ = Vec3.zeroQ :=
  ⟨(C5_degenerate_warnings.1 [[0, 1], [0, 1, 2]]).1,
   by
    have h := (C5_degenerate_warnings.1 [[(0 : Int), 1], [0, 1, 2]]).2
    rw [h]
    decide,
   C5_degenerate_warnings.2.1 [7, 8] (by decide),
   C5_degenerate_warnings.2.2 ⟨1, 2, 3⟩ ⟨4, 5, 6⟩ ⟨7, 8, 10⟩ ⟨2, 2⟩ ⟨2, 2⟩ ⟨2, 2⟩
     (by norm_num [uvDet])⟩

/-- C3 (amended: the budget claim holds for `split_unit ≥ 3`; a budget below 3
cannot hold even one triangle): every split stays within the vertex budget,
and the splits' remapped triangles, concatenated in order, are exactly the
pre-split triangle list with its materials — no loss, no duplication,
submesh/material grouping preserved; at the mesh level every produced
`SplitData` has one point per vertex-table slot, so each stays within
`split_unit`. -/
theorem C3_split_exact :
    (∀ (N : Nat) (ts : List BTri), 3 ≤ N →
      (∀ s ∈ buildSplits N ts, s.vtab.length ≤ N) ∧
      unSplit (buildSplits N ts) = ts) ∧
    (∀ (m : Mesh ℚ) (b : BuildSplit),
      (toSplitData m b).points.length = b.vtab.length) ∧
    (∀ m : Mesh ℚ, m.refine_settings.flags.split = true →
      3 ≤ m.refine_settings.split_unit.toNat →
      ∀ sp ∈ m.refine.splits,
        sp.points.length ≤ m.refine_settings.split_unit.toNat) := by
  refine ⟨fun N ts h3 =>
      ⟨(buildSplits_exact N ts h3).2, (buildSplits_exact N ts h3).1⟩,
    fun m b => by simp [toSplitData], ?_⟩
  intro m hs h3 sp hsp
  rw [show m.refine.splits =
      (if m.refine_settings.flags.split then
        Mesh.splitStage m.refine_settings.split_unit m.destructive.refineWork
      else [m.destructive.refineWork.wholeSplit]) from rfl, if_pos hs,
    Mesh.splitStage] at hsp
  obtain ⟨b, hb, hbe⟩ := List.mem_map.mp hsp
  rw [← hbe, show (toSplitData m.destructive.refineWork b).points.length =
      b.vtab.length from by simp [toSplitData]]
  exact (buildSplits_exact _ _ h3).2 b hb

/-- C3 witness: a concrete triangle list under budget 4, and a concrete mesh
refined with `split_unit = 3`. -/
theorem C3_split_exact_witness :
    (∀ s ∈ buildSplits 4 [⟨0, 1, 2, 0⟩, ⟨2, 1, 3, 0⟩, ⟨0, 5, 9, 1⟩],
      s.vtab.length ≤ 4) ∧
    unSplit (buildSplits 4 [⟨0, 1, 2, 0⟩, ⟨2, 1, 3, 0⟩, ⟨0, 5, 9, 1⟩]) =
      [⟨0, 1, 2, 0⟩, ⟨2, 1, 3, 0⟩, ⟨0, 5, 9, 1⟩] ∧
    (∀ sp ∈ mSplitEx3.refine.splits,
      sp.points.length ≤ mSplitEx3.refine_settings.split_unit.toNat) :=
  ⟨(C3_split_exact.1 4 [⟨0, 1, 2, 0⟩, ⟨2, 1, 3, 0⟩, ⟨0, 5, 9, 1⟩] (by decide)).1,
   (C3_split_exact.1 4 [⟨0, 1, 2, 0⟩, ⟨2, 1, 3, 0⟩, ⟨0, 5, 9, 1⟩] (by decide)).2,
   C3_split_exact.2.2 mSplitEx3 rfl (by decide)⟩

/-- C3 counterexample: with `split_unit = 1` (the claim as stated quantifies
over every `N`) the mesh's single triangle cannot fit any split, so a produced
split exceeds the budget. -/
theorem C3_split_budget_counterexample :
    ¬ (∀ sp ∈ mSplitEx.refine.splits,
        sp.points.length ≤ mSplitEx.refine_settings.split_unit.toNat) := by
  decide

/-- C7: `refine` populates the derived members (`submeshes`, `splits`,
`weights4`) from the working pipeline and touches nothing else on the
instance when the destructive stages 3–4 are disabled; in general its only
mutation of the authoring buffers is what stages 3–4 (skin baking,
handedness/face swap) write, and even those stages never touch the transform,
flags, settings, uv, counts or material buffers. -/
theorem C7_refine_frame :
    (∀ m : Mesh ℚ,
      m.refine_settings.flags.bake_skin = false →
      m.refine_settings.flags.swap_handedness = false →
      m.refine_settings.flags.swap_faces = false →
      m.refine = { m with
        submeshes := submeshesOf m.refineWork
        splits := if m.refine_settings.flags.split then
            Mesh.splitStage m.refine_settings.split_unit m.refineWork
          else [m.refineWork.wholeSplit]
        weights4 := m.weights4Of }) ∧
    (∀ m : Mesh ℚ,
      m.refine = { m.destructive with
        submeshes := submeshesOf m.destructive.refineWork
        splits := if m.refine_settings.flags.split then
            Mesh.splitStage m.refine_settings.split_unit m.destructive.refineWork
          else [m.destructive.refineWork.wholeSplit]
        weights4 := m.weights4Of }) ∧
    (∀ m : Mesh ℚ,
      m.destructive.toTransform = m.toTransform ∧
      m.destructive.flags = m.flags ∧
      m.destructive.refine_settings = m.refine_settings ∧
      m.destructive.uv = m.uv ∧
      m.destructive.counts = m.counts ∧
      m.destructive.materialIDs = m.materialIDs ∧
      m.destructive.submeshes = m.submeshes ∧
      m.destructive.splits = m.splits ∧
      m.destructive.weights4 = m.weights4) := by
  have hgen : ∀ m : Mesh ℚ,
      m.refine = { m.destructive with
        submeshes := submeshesOf m.destructive.refineWork
        splits := if m.refine_settings.flags.split then
            Mesh.splitStage m.refine_settings.split_unit m.destructive.refineWork
          else [m.destructive.refineWork.wholeSplit]
        weights4 := m.weights4Of } := fun m => rfl
  refine ⟨?_, hgen, ?_⟩
  · intro m h1 h2 h3
    have hd : m.destructive = m := by
      simp [Mesh.destructive, h1, h2, h3]
    rw [hgen m, hd]
  · intro m
    unfold Mesh.destructive Mesh.bakeSkin Mesh.swapHandedness Mesh.swapFaces
    dsimp only
    split_ifs <;> exact ⟨rfl, rfl, rfl, rfl, rfl, rfl, rfl, rfl, rfl⟩

/-- C7 witness: the frame equality evaluated on a concrete mesh with the
destructive stages off. -/
theorem C7_refine_frame_witness :
    mQEx.refine = { mQEx with
      submeshes := submeshesOf mQEx.refineWork
      splits := if mQEx.refine_settings.flags.split then
          Mesh.splitStage mQEx.refine_settings.split_unit mQEx.refineWork
        else [mQEx.refineWork.wholeSplit]
      weights4 := mQEx.weights4Of } :=
  C7_refine_frame.1 mQEx rfl rfl rfl

end ms
